import Mathlib

/-!
# ipc-stdio: supervisor (ipc-server.c) and client relay (ipc-client.c)

A shallow embedding of the process supervisor, the output pump, the input
writer, the receive loop and the client writer loop.  System calls are
modelled by their results, supplied by the environment as scripts; every
call the program makes is recorded as an event, in program order.
-/

/-- A byte of a buffer, as its numeric value (0 is NUL, 10 is newline). -/
abbrev Byte := Nat

namespace IpcServer

/-- Fallback of ipc-server.c line 43, the value of glibc's stdio.h. -/
def BUFSIZ : Nat := 8192

/-- Linux errno values used by the program. -/
def EINTR : Int := 4
/-- Linux errno: no child processes. -/
def ECHILD : Int := 10
/-- Linux errno: resource temporarily unavailable. -/
def EAGAIN : Int := 11
/-- Linux errno: no message of desired type. -/
def ENOMSG : Int := 42

/-- Signal numbers. -/
def SIGKILL : Int := 9
/-- Signal number of the graceful terminate signal. -/
def SIGTERM : Int := 15
/-- Option bit of waitpid: return immediately if no child has exited. -/
def WNOHANG : Int := 1

/-- Exit status of a wait status word: `((status) & 0xff00) >> 8`. -/
def WEXITSTATUS (status : Nat) : Nat := (status &&& 0xff00) >>> 8

/-- Signalled test of a wait status word:
`((signed char) (((status) & 0x7f) + 1) >> 1) > 0`. -/
def WIFSIGNALED (status : Nat) : Bool :=
  let t : Nat := (status &&& 0x7f) + 1
  let sc : Int := if 128 ≤ t then (t : Int) - 256 else (t : Int)
  decide (0 < sc / 2)

/-- The global variables of ipc-server.c (lines 54 to 66). -/
structure Globals where
  msqtx : Int
  msqrx : Int
  pid : Int
  nicelevel : Int
  thread_active : Bool
  pok0 : Int
  pok1 : Int
  pin0 : Int
  pin1 : Int
  pout0 : Int
  pout1 : Int
  deriving DecidableEq, Repr

/-- Calls made by the supervisor, recorded in program order, with markers
for the calls of `doit` and `write_to_stdin`, for the store to the flag
`terminated` and for a failed assertion.  A write event carries the bytes
offered and the result; a msgsnd event the first msgsz bytes of the text. -/
inductive Ev where
  | mutex_lock
  | mutex_unlock
  | close (fd : Int)
  | usleep (usec : Nat)
  | sleep (sec : Nat)
  | sched_yield
  | waitpid (pid : Int) (options : Int)
  | kill (pid : Int) (sig : Int)
  | log_sigkill
  | pthread_join
  | assert_fail
  | pipe
  | fork
  | read (fd : Int) (count : Nat)
  | ioctl_fionbio (fd : Int)
  | fcntl_getfl (fd : Int)
  | select
  | set_terminated
  | msgsnd (msqid : Int) (mtype : Int) (mtext : List Byte) (msgsz : Nat)
  | log_cannot_send
  | call_write_to_stdin (data : List Byte)
  | signal_sigint
  | msgrcv (msqid : Int) (rv : Int) (mtext : List Byte)
  | log_child_terminated
  | log_msgrcv_failed
  | log_no_keys
  | log_no_queues
  | pthread_create
  | fcntl_cloexec (fd : Int)
  | dup2 (oldfd newfd : Int)
  | nice (inc : Int)
  | execve
  | write (fd : Int) (buf : List Byte) (r : Int)
  | fsync (fd : Int)
  | proc_exit (code : Int)
  | msgctl_rmid (msqid : Int)
  | log_start_failed (rv : Int)
  | call_doit
  | unlink
  deriving DecidableEq, Repr

/-- Result of one waitpid call: return value, the value of `status` after
the call, errno. -/
structure WaitOutcome where
  ret : Int
  status : Nat
  errno : Int
  deriving DecidableEq, Repr

/-- Running state: globals, events so far, number of waitpid calls so far. -/
structure World where
  g : Globals
  trace : List Ev
  nwait : Nat
  deriving DecidableEq, Repr

/-- Record one event. -/
def World.emit (w : World) (e : Ev) : World := { w with trace := w.trace ++ [e] }

/-- The events of `close_fd (&fd)`: close only a descriptor that is open. -/
def close_fd (fd : Int) : List Ev := if 0 ≤ fd then [Ev.close fd] else []

/-- Function `close_stdin` (lines 192 to 202). -/
def close_stdin (w : World) : World :=
  if w.g.pin1 < 0 then w
  else
    { w with
      g := { w.g with pin0 := -1, pin1 := -1, pout0 := -1, pout1 := -1 }
      trace := w.trace ++ close_fd w.g.pin0 ++ close_fd w.g.pin1
                 ++ close_fd w.g.pout0 ++ close_fd w.g.pout1 }

/-- Function `_wait` (lines 204 to 228); `o k` is the result of the k-th
waitpid call.  Returns the new state and the returned status. -/
def _wait (o : Nat → WaitOutcome) (options : Int) (w : World) : World × Int :=
  if w.g.pid = 0 then (w, -1)
  else
    let r := o w.nwait
    let w1 : World :=
      { w with trace := w.trace ++ [Ev.waitpid w.g.pid options], nwait := w.nwait + 1 }
    let w2 : World :=
      if r.ret = w.g.pid then
        if WEXITSTATUS r.status ≠ 0 ∨ WIFSIGNALED r.status = true then
          { w1 with g := { w1.g with pid := 0 } }
        else w1
      else if r.ret ≠ 0 then
        if r.errno = ECHILD then { w1 with g := { w1.g with pid := 0 } } else w1
      else w1
    (w2, (r.status : Int))

/-- Function `terminate` (lines 230 to 272).  The boolean is true when the
function returns, false when `assert (pid == 0)` fails and aborts. -/
def terminate (o : Nat → WaitOutcome) (w : World) : World × Bool :=
  let w := w.emit Ev.mutex_lock
  let w := close_stdin w
  let w :=
    if w.g.pid ≠ 0 then
      (_wait o WNOHANG ((w.emit (Ev.usleep 200000)).emit Ev.sched_yield)).1
    else w
  let w :=
    if w.g.pid ≠ 0 then
      (_wait o WNOHANG
        (((w.emit (Ev.kill w.g.pid SIGTERM)).emit (Ev.usleep 250000)).emit Ev.sched_yield)).1
    else w
  let w :=
    if w.g.pid ≠ 0 then (w.emit Ev.log_sigkill).emit (Ev.kill w.g.pid SIGKILL)
    else w
  let w := (_wait o 0 w).1
  let w := if w.g.thread_active then w.emit Ev.pthread_join else w
  let w : World := { w with g := { w.g with thread_active := false } }
  if w.g.pid = 0 then (w.emit Ev.mutex_unlock, true)
  else (w.emit Ev.assert_fail, false)

/-- Step of `terminate`, lines 238 to 242: the poll after closing stdin. -/
def terminate_poll (o : Nat → WaitOutcome) (w : World) : World :=
  if w.g.pid ≠ 0 then
    (_wait o WNOHANG ((w.emit (Ev.usleep 200000)).emit Ev.sched_yield)).1
  else w

/-- Step of `terminate`, lines 248 to 253: SIGTERM and the second poll. -/
def terminate_sigterm (o : Nat → WaitOutcome) (w : World) : World :=
  if w.g.pid ≠ 0 then
    (_wait o WNOHANG
      (((w.emit (Ev.kill w.g.pid SIGTERM)).emit (Ev.usleep 250000)).emit Ev.sched_yield)).1
  else w

/-- Step of `terminate`, lines 259 to 262: SIGKILL. -/
def terminate_sigkill (w : World) : World :=
  if w.g.pid ≠ 0 then (w.emit Ev.log_sigkill).emit (Ev.kill w.g.pid SIGKILL)
  else w

/-- Step of `terminate`, lines 266 to 271: join, assertion, unlock. -/
def terminate_finish (w : World) : World × Bool :=
  let w := if w.g.thread_active then w.emit Ev.pthread_join else w
  let w : World := { w with g := { w.g with thread_active := false } }
  if w.g.pid = 0 then (w.emit Ev.mutex_unlock, true)
  else (w.emit Ev.assert_fail, false)

/-- Function `init_globals` (lines 397 to 405). -/
def init_globals (g : Globals) : Globals :=
  { g with thread_active := false, pid := 0, pin1 := -1, nicelevel := 0 }

/-- Static storage before `main` runs: the initialisers of lines 54 to 64. -/
def static_globals : Globals :=
  { msqtx := -1, msqrx := -1, pid := 0, nicelevel := 0, thread_active := false,
    pok0 := 0, pok1 := 0, pin0 := 0, pin1 := 0, pout0 := 0, pout1 := 0 }

/-- Result of one `write (pin[1], ...)`: return value and errno. -/
structure WriteOutcome where
  r : Int
  errno : Int
  deriving DecidableEq, Repr

/-- Conversion `(size_t) r` of a signed value, size_t being 64 bits wide. -/
def to_size_t (r : Int) : Nat := (r % 2 ^ 64).toNat

/-- The loops of `write_to_stdin` (lines 171 to 186), from offset `c`; each
write call takes the next outcome of the script.  The result is none when
the script ends while the function is still retrying, else the returned
count and the events. -/
def write_loop (fd : Int) (data : List Byte) (bytes : Nat) :
    Nat → List WriteOutcome → Option (Nat × List Ev)
  | c, [] =>
    if c < bytes then none else some (c, [Ev.fsync fd, Ev.mutex_unlock])
  | c, o :: rest =>
    if c < bytes then
      let ev := Ev.write fd ((data.drop c).take (bytes - c)) o.r
      if o.r < 0 ∧ (o.errno = EINTR ∨ o.errno = EAGAIN) then
        (write_loop fd data bytes c rest).map
          (fun p => (p.1, ev :: Ev.sleep 1 :: p.2))
      else if to_size_t o.r ≠ bytes - c then
        some (c, [ev, Ev.mutex_unlock])
      else
        (write_loop fd data bytes ((c + to_size_t o.r) % 2 ^ 64) rest).map
          (fun p => (p.1, ev :: p.2))
    else some (c, [Ev.fsync fd, Ev.mutex_unlock])

/-- Function `write_to_stdin` (lines 164 to 190). -/
def write_to_stdin (g : Globals) (data : List Byte) (bytes : Nat)
    (script : List WriteOutcome) : Option (Nat × List Ev) :=
  (write_loop g.pin1 data bytes 0 script).map (fun p => (p.1, Ev.mutex_lock :: p.2))

/-- Bytes the pipe accepted, read off the write events: a write that
returned r > 0 accepted the first r bytes it was offered. -/
def accepted_bytes : List Ev → List Byte
  | [] => []
  | Ev.write _ buf r :: rest => buf.take r.toNat ++ accepted_bytes rest
  | _ :: rest => accepted_bytes rest

/-- Function `reply` (lines 101 to 115); `msgsnd_rv` is the result of the
msgsnd call if one is made. -/
def reply (g : Globals) (msg : List Byte) (len : Nat) (msgsnd_rv : Int) : Int × List Ev :=
  if BUFSIZ ≤ len then (-1, [])
  else if msgsnd_rv = -1 then
    (-1, [Ev.msgsnd g.msqtx 1 (msg.take len) len, Ev.log_cannot_send])
  else (0, [Ev.msgsnd g.msqtx 1 (msg.take len) len])

/-- Environment of one iteration of the pump loop: the results of fcntl,
of read (with the bytes it stored at the start of the buffer and errno), of
select and of msgsnd; a result is used only if that call is made. -/
structure PumpIter where
  fcntl_rv : Int
  r : Int
  data : List Byte
  errno : Int
  select_rv : Int
  msgsnd_rv : Int
  deriving DecidableEq, Repr

/-- The `for` loop of `output_interposer` (lines 127 to 149) on the buffer
`buf`.  The boolean tells whether the loop has ended within the script. -/
def pump_loop (g : Globals) : List Byte → List PumpIter → List Ev × Bool
  | _, [] => ([], false)
  | buf, it :: rest =>
    if it.fcntl_rv = -1 then ([Ev.fcntl_getfl g.pout0], true)
    else
      let pre := [Ev.fcntl_getfl g.pout0, Ev.read g.pout0 (BUFSIZ - 1)]
      if it.r < 0 ∧ (it.errno = EINTR ∨ it.errno = EAGAIN) then
        if it.select_rv = -1 then (pre ++ [Ev.select], true)
        else
          let p := pump_loop g buf rest
          (pre ++ [Ev.select] ++ p.1, p.2)
      else if it.r ≤ 0 then (pre, true)
      else
        let buf1 := it.data ++ buf.drop it.data.length
        let buf2 := buf1.set it.r.toNat 0
        let rp := reply g buf2 it.r.toNat it.msgsnd_rv
        if rp.1 ≠ 0 then (pre ++ rp.2, true)
        else
          let p := pump_loop g buf2 rest
          (pre ++ rp.2 ++ p.1, p.2)

/-- Function `output_interposer` (lines 117 to 152); `buf` is the initial
content of the local buffer. -/
def output_interposer (g : Globals) (buf : List Byte) (script : List PumpIter) :
    List Ev × Bool :=
  let p := pump_loop g buf script
  if p.2 then (Ev.ioctl_fionbio g.pout0 :: p.1 ++ [Ev.set_terminated], true)
  else (Ev.ioctl_fionbio g.pout0 :: p.1, false)

/-- Result of one msgrcv call: return value, the content of `rxbuf.mtext`
after the call, errno. -/
structure RcvOutcome where
  rv : Int
  mtext : List Byte
  errno : Int
  deriving DecidableEq, Repr

/-- Environment of one iteration of the receive loop: the value read from
the flag `terminated`, the result of msgrcv, and the results of the write
calls made by `write_to_stdin` in that iteration. -/
structure DoitIter where
  terminated : Int
  rcv : RcvOutcome
  writes : List WriteOutcome
  deriving DecidableEq, Repr

/-- The `while (true)` loop of `doit` (lines 378 to 394).  The result is
none when the script ends before the loop does. -/
def doit_loop (g : Globals) : List DoitIter → Option (List Ev)
  | [] => none
  | it :: rest =>
    if it.terminated ≠ 0 then some [Ev.log_child_terminated]
    else if it.rcv.rv = -1 then
      if it.rcv.errno = ENOMSG then
        (doit_loop g rest).map
          (fun t => Ev.msgrcv g.msqrx it.rcv.rv it.rcv.mtext :: Ev.usleep 100000 :: t)
      else some [Ev.msgrcv g.msqrx it.rcv.rv it.rcv.mtext, Ev.log_msgrcv_failed]
    else
      let bytes := to_size_t it.rcv.rv
      match write_to_stdin g it.rcv.mtext bytes it.writes with
      | none => none
      | some p =>
        (doit_loop g rest).map (fun t =>
          Ev.msgrcv g.msqrx it.rcv.rv it.rcv.mtext
            :: Ev.call_write_to_stdin (it.rcv.mtext.take bytes) :: p.2 ++ t)

/-- Function `doit` (lines 373 to 395). -/
def doit (g : Globals) (script : List DoitIter) : Option (List Ev) :=
  (doit_loop g script).map (fun t => Ev.signal_sigint :: t)

/-- Buffers passed to `write_to_stdin`, in call order, joined. -/
def handed_bytes : List Ev → List Byte
  | [] => []
  | Ev.call_write_to_stdin data :: rest => data ++ handed_bytes rest
  | _ :: rest => handed_bytes rest

/-- Result of one `read (pok[0], &buf, 1)`: return value and errno. -/
structure ReadOutcome where
  n : Int
  errno : Int
  deriving DecidableEq, Repr

/-- How a function ends: it returns a value, or the process image is
replaced by execve, or the process exits, or an assertion aborts it. -/
inductive Exit where
  | returned (rv : Int)
  | execed
  | exited (code : Int)
  | aborted
  deriving DecidableEq, Repr

/-- Environment of `start`: the descriptor pairs the three pipe calls give
(none when the call fails), the result of fork, the results of the reads on
the handshake pipe, the result of pthread_create, whether execve succeeds,
the result of the write of the sentinel byte, and the waitpid results for
the `terminate` of line 323. -/
structure StartEnv where
  pipe_pin : Option (Int × Int)
  pipe_pout : Option (Int × Int)
  pipe_pok : Option (Int × Int)
  fork_ret : Int
  handshake : List ReadOutcome
  create_rv : Int
  execve_ok : Bool
  sentinel_rv : Int
  waits : Nat → WaitOutcome

/-- The `for (;;)` loop of lines 289 to 307 up to its exit: true when a
read returned 1, false on `break`, none when the script ends first. -/
def handshake_loop (fd : Int) : List ReadOutcome → Option (Bool × List Ev)
  | [] => none
  | r :: rest =>
    if r.n = 1 then some (true, [Ev.read fd 1])
    else if r.n = -1 ∧ (r.errno = EAGAIN ∨ r.errno = EINTR) then
      (handshake_loop fd rest).map (fun p => (p.1, Ev.read fd 1 :: p.2))
    else some (false, [Ev.read fd 1])

/-- The branch `r > 0` of `start` (lines 282 to 327). -/
def start_parent (env : StartEnv) (r : Int) (w : World) : Option (World × Exit) :=
  let w : World :=
    { w with g := { w.g with pid := r, pok1 := -1 }, trace := w.trace ++ close_fd w.g.pok1 }
  match handshake_loop w.g.pok0 env.handshake with
  | none => none
  | some (true, evs) =>
    let w1 : World :=
      { w with
        g := { w.g with pid := 0, pok0 := -1, pok1 := -1, pin1 := -1, pin0 := -1,
                        pout1 := -1, pout0 := -1 }
        trace := w.trace ++ evs ++ close_fd w.g.pok0 ++ close_fd w.g.pok1 ++ close_fd w.g.pin1
                   ++ close_fd w.g.pin0 ++ close_fd w.g.pout1 ++ close_fd w.g.pout0 }
    some (w1, Exit.returned (-3))
  | some (false, evs) =>
    let w1 : World :=
      { w with
        g := { w.g with pok0 := -1, pout1 := -1, pin0 := -1, thread_active := true }
        trace := w.trace ++ evs ++ close_fd w.g.pok0 ++ close_fd (-1) ++ close_fd w.g.pout1
                   ++ close_fd w.g.pin0 ++ [Ev.pthread_create] }
    if env.create_rv ≠ 0 then
      let t := terminate env.waits { w1 with g := { w1.g with thread_active := false } }
      if t.2 then some (t.1, Exit.returned (-2)) else some (t.1, Exit.aborted)
    else some (w1, Exit.returned 0)

/-- The code of `start` after the `if (r > 0)` block (lines 329 to 363):
the branch meant for the child process. -/
def start_child (env : StartEnv) (w : World) : World × Exit :=
  let g := w.g
  let t := w.trace ++ close_fd g.pok0 ++ [Ev.fcntl_cloexec g.pok1] ++ close_fd g.pin1
    ++ (if g.pin0 ≠ 0 then [Ev.dup2 g.pin0 0] else []) ++ close_fd g.pin0 ++ close_fd g.pout0
    ++ (if g.pout1 ≠ 1 then [Ev.dup2 g.pout1 1] else [])
    ++ (if g.pout1 ≠ 2 then [Ev.dup2 g.pout1 2] else [])
    ++ (if g.pout1 ≠ 1 ∧ g.pout1 ≠ 2 then close_fd g.pout1 else [])
    ++ (if g.nicelevel ≠ 0 then [Ev.nice g.nicelevel] else [])
    ++ [Ev.execve]
  let g1 : Globals :=
    { g with pok0 := -1, pin1 := -1, pin0 := -1, pout0 := -1,
             pout1 := if g.pout1 ≠ 1 ∧ g.pout1 ≠ 2 then -1 else g.pout1 }
  if env.execve_ok then ({ w with g := g1, trace := t }, Exit.execed)
  else
    ({ w with g := { g1 with pok1 := -1 }
              trace := t ++ [Ev.write g.pok1 [0] env.sentinel_rv] ++ close_fd g.pok1
                         ++ [Ev.proc_exit 1] },
     Exit.exited 1)

/-- Function `start` (lines 274 to 364). -/
def start (env : StartEnv) (w : World) : Option (World × Exit) :=
  match env.pipe_pin with
  | none => some (w.emit Ev.pipe, Exit.returned (-1))
  | some pi =>
    let w : World :=
      { w with g := { w.g with pin0 := pi.1, pin1 := pi.2 }, trace := w.trace ++ [Ev.pipe] }
    match env.pipe_pout with
    | none => some (w.emit Ev.pipe, Exit.returned (-1))
    | some po =>
      let w : World :=
        { w with g := { w.g with pout0 := po.1, pout1 := po.2 }, trace := w.trace ++ [Ev.pipe] }
      match env.pipe_pok with
      | none => some (w.emit Ev.pipe, Exit.returned (-1))
      | some pk =>
        let w : World :=
          { w with g := { w.g with pok0 := pk.1, pok1 := pk.2 }
                   trace := w.trace ++ [Ev.pipe, Ev.fork] }
        if 0 < env.fork_ret then start_parent env env.fork_ret w
        else some (start_child env w)

/-- Messages taken from the queue, in order, joined: a msgrcv that did
not return -1 delivered the first rv bytes of the buffer. -/
def received_bytes : List Ev → List Byte
  | [] => []
  | Ev.msgrcv _ rv mtext :: rest =>
    (if rv = -1 then [] else mtext.take (to_size_t rv)) ++ received_bytes rest
  | _ :: rest => received_bytes rest

/-- Environment of `main`: the keys given by ftok, the queue ids given by
msgget, and the environments of `start`, `doit` and the final `terminate`. -/
structure MainEnv where
  key_tx : Int
  key_rx : Int
  msgget_rx : Int
  msgget_tx : Int
  start : StartEnv
  doit : List DoitIter
  waits : Nat → WaitOutcome

/-- Function `open_ipcmsg_ctrl` (lines 69 to 88). -/
def open_ipcmsg_ctrl (env : MainEnv) (w : World) : World × Int :=
  if env.key_rx = -1 ∨ env.key_tx = -1 then (w.emit Ev.log_no_keys, -1)
  else
    let w1 : World :=
      { w with g := { w.g with msqrx := env.msgget_rx, msqtx := env.msgget_tx } }
    if w1.g.msqrx = -1 ∨ w1.g.msqtx = -1 then (w1.emit Ev.log_no_queues, -1)
    else (w1, 0)

/-- Function `close_ipc_queues` (lines 90 to 99). -/
def close_ipc_queues (w : World) : World :=
  { w with trace := w.trace ++ (if 0 ≤ w.g.msqtx then [Ev.msgctl_rmid w.g.msqtx] else [])
                      ++ (if 0 ≤ w.g.msqrx then [Ev.msgctl_rmid w.g.msqrx] else []) }

/-- The `switch (rv)` of lines 501 to 507: the receive loop runs only for
a zero result of `start`. -/
def main_switch (env : MainEnv) (rv : Int) (w : World) : Option World :=
  if rv = 0 then
    (doit w.g env.doit).map (fun t => { w with trace := w.trace ++ Ev.call_doit :: t })
  else some (w.emit (Ev.log_start_failed rv))

/-- Function `main` (lines 442 to 518) once the options are parsed. -/
def main (env : MainEnv) : Option (World × Exit) :=
  let w0 : World := { g := init_globals static_globals, trace := [], nwait := 0 }
  let op := open_ipcmsg_ctrl env w0
  if op.2 ≠ 0 then some (close_ipc_queues op.1, Exit.returned (-1))
  else
    match start env.start op.1 with
    | none => none
    | some (w, Exit.returned rv) =>
      match main_switch env rv w with
      | none => none
      | some w1 =>
        let t := terminate env.waits w1
        if t.2 then some ((close_ipc_queues t.1).emit Ev.unlink, Exit.returned rv)
        else some (t.1, Exit.aborted)
    | some (w, e) => some (w, e)

end IpcServer

namespace IpcClient

/-- Fallback of ipc-client.c line 33, the value of glibc's stdio.h. -/
def BUFSIZ : Nat := 8192

/-- Linux errno: resource temporarily unavailable (queue full). -/
def EAGAIN : Int := 11

/-- Calls made by the client, recorded in program order; a msgsnd event
carries the first msgsz bytes of the text and the result of the call. -/
inductive Ev where
  | log_no_keys
  | log_no_queues
  | log_no_thread
  | pthread_create
  | siginterrupt
  | msgsnd (msqid : Int) (mtype : Int) (mtext : List Byte) (msgsz : Nat) (rv : Int)
  | usleep (usec : Nat)
  | log_msgsnd_failed
  | pthread_cancel
  | pthread_join
  deriving DecidableEq, Repr

/-- Result of one msgsnd call: return value and errno. -/
structure SendOutcome where
  rv : Int
  errno : Int
  deriving DecidableEq, Repr

/-- Reading of `fgets` with room for n bytes: stop after a newline, at the
end of the stream, or when n bytes are stored.  Gives the bytes stored and
the rest of the stream. -/
def fgets_aux : Nat → List Byte → List Byte × List Byte
  | 0, input => ([], input)
  | _ + 1, [] => ([], [])
  | n + 1, b :: rest =>
    if b = 10 then ([b], rest)
    else ((fgets_aux n rest).1.cons b, (fgets_aux n rest).2)

/-- Library call `fgets (s, size, stdin)`: none (NULL) at the end of the
stream, else the bytes stored before the terminating NUL and the rest. -/
def fgets (size : Nat) (input : List Byte) : Option (List Byte × List Byte) :=
  match input with
  | [] => none
  | _ :: _ => some (fgets_aux (size - 1) input)

/-- Library call `strlen`: the number of bytes before the first NUL. -/
def strlen : List Byte → Nat
  | [] => 0
  | b :: rest => if b = 0 then 0 else strlen rest + 1

/-- The retry loop of lines 148 to 153,
`while (--retry && msgsnd (...) == -1) { if (errno != EAGAIN) break; usleep (50000); }`,
entered with `retry + 1` in the counter (10 at line 147, never 0); `snd k`
is the result of the k-th msgsnd call.  Gives the counter after the loop,
the number of msgsnd calls made so far, and the events. -/
def send_loop (snd : Nat → SendOutcome) (msqtx : Int) (mtext : List Byte) (l : Nat) :
    Nat → Nat → Nat × Nat × List Ev
  | 0, k => (0, k, [])
  | retry + 1, k =>
    if retry = 0 then (0, k, [])
    else
      let o := snd k
      let ev := Ev.msgsnd msqtx 1 (mtext.take l) l o.rv
      if o.rv ≠ -1 then (retry, k + 1, [ev])
      else if o.errno ≠ EAGAIN then (retry, k + 1, [ev])
      else
        let p := send_loop snd msqtx mtext l retry (k + 1)
        (p.1, p.2.1, ev :: Ev.usleep 50000 :: p.2.2)

/-- The `while (fgets ...)` loop of lines 142 to 158 on the bytes of the
standard input; every iteration consumes at least one byte, so the first
argument, one more than the length of the input, is never used up. -/
def writer_loop_aux (snd : Nat → SendOutcome) (msqtx : Int) :
    Nat → Nat → List Byte → List Ev
  | 0, _, _ => []
  | fuel + 1, k, input =>
    match fgets BUFSIZ input with
    | none => []
    | some (line, rest) =>
      let mtext := line ++ [0]
      let l := strlen mtext
      if l = 0 then []
      else
        let p := send_loop snd msqtx mtext l 10 k
        if p.1 = 0 then p.2.2 ++ [Ev.log_msgsnd_failed]
        else p.2.2 ++ writer_loop_aux snd msqtx fuel p.2.1 rest

/-- The writer loop of `main` (lines 140 to 158). -/
def writer_loop (snd : Nat → SendOutcome) (msqtx : Int) (input : List Byte) : List Ev :=
  writer_loop_aux snd msqtx (input.length + 1) 0 input

/-- Environment of `main`: keys from ftok, queue ids from msgget, the
result of pthread_create, the bytes of the standard input, and the results
of the msgsnd calls. -/
structure MainEnv where
  key_rx : Int
  key_tx : Int
  msqrx : Int
  msqtx : Int
  create_rv : Int
  stdin : List Byte
  snd : Nat → SendOutcome

/-- Function `main` (lines 88 to 163) once the options are parsed: the
events and the returned value. -/
def main (env : MainEnv) : List Ev × Int :=
  if env.key_rx = -1 ∨ env.key_tx = -1 then ([Ev.log_no_keys], -1)
  else if env.msqrx = -1 ∨ env.msqtx = -1 then ([Ev.log_no_queues], -1)
  else if env.create_rv ≠ 0 then ([Ev.pthread_create, Ev.log_no_thread], -2)
  else
    (Ev.pthread_create :: Ev.siginterrupt :: writer_loop env.snd env.msqtx env.stdin
       ++ [Ev.pthread_cancel, Ev.pthread_join], 0)

/-- Payloads of the messages the queue accepted, in send order, joined. -/
def sent_bytes : List Ev → List Byte
  | [] => []
  | Ev.msgsnd _ _ mtext _ rv :: rest => (if rv = -1 then [] else mtext) ++ sent_bytes rest
  | _ :: rest => sent_bytes rest

end IpcClient

/-! ## Concrete states and scripts used below -/

namespace IpcServer

/-- A supervisor with a running child 1234, both parent pipe ends open and
the pump thread running: the state after a successful `start`. -/
def running_globals : Globals :=
  { msqtx := 1, msqrx := 2, pid := 1234, nicelevel := 0, thread_active := true,
    pok0 := -1, pok1 := -1, pin0 := -1, pin1 := 5, pout0 := 6, pout1 := -1 }

/-- Script of waitpid results: the child is still running at both polls,
then exits by itself with code 0, and the blocking reap collects it with
wait status 0. -/
def waits_late_clean_exit : Nat → WaitOutcome := fun k =>
  if k = 2 then { ret := 1234, status := 0, errno := 0 }
  else { ret := 0, status := 0, errno := 0 }

/-- A supervisor with a running child 4321 that has no pump thread. -/
def running_globals_no_pump : Globals :=
  { msqtx := 1, msqrx := 2, pid := 4321, nicelevel := 0, thread_active := false,
    pok0 := -1, pok1 := -1, pin0 := -1, pin1 := 7, pout0 := 8, pout1 := -1 }

/-- Script of waitpid results for child 4321: it ignores the stdin close and
SIGTERM (both polls return 0), then ends with code 0 before SIGKILL takes
effect, so the blocking reap returns it with wait status 0. -/
def waits_ignores_then_exits : Nat → WaitOutcome := fun k =>
  if k < 2 then { ret := 0, status := 0, errno := 0 }
  else { ret := 4321, status := 0, errno := 0 }

/-- Script of waitpid results: the child has already exited with code 0, the
first poll collects it (wait status 0), later calls fail with ECHILD. -/
def waits_early_clean_exit : Nat → WaitOutcome := fun k =>
  if k = 0 then { ret := 1234, status := 0, errno := 0 }
  else { ret := -1, status := 0, errno := ECHILD }

/-- A read on the handshake pipe that failed with EINTR or EAGAIN. -/
def ReadOutcome.transient (r : ReadOutcome) : Prop :=
  r.n = -1 ∧ (r.errno = EAGAIN ∨ r.errno = EINTR)

/-- A state where no child is running, as left by `init_globals` or by a
`terminate` that reset the child handle. -/
def NoChild (g : Globals) : Prop :=
  g.pid = 0 ∧ g.pin1 < 0 ∧ g.thread_active = false

/-- Environment of `start` in which the command cannot be executed: the
handshake read is interrupted once and then delivers the sentinel byte. -/
def exec_fail_env : StartEnv :=
  { pipe_pin := some (3, 4), pipe_pout := some (5, 6), pipe_pok := some (7, 8),
    fork_ret := 1234, handshake := [⟨-1, EINTR⟩, ⟨1, 0⟩], create_rv := 0,
    execve_ok := false, sentinel_rv := 1, waits := fun _ => ⟨0, 0, 0⟩ }

/-- Environment of `main` around `exec_fail_env`. -/
def exec_fail_main_env : MainEnv :=
  { key_tx := 11, key_rx := 12, msgget_rx := 1, msgget_tx := 2, start := exec_fail_env,
    doit := [], waits := fun _ => ⟨0, 0, 0⟩ }

/-- Environment of `start` in which the three pipes are created and fork
fails with -1; an execve in this process would succeed. -/
def fork_fail_env : StartEnv :=
  { pipe_pin := some (3, 4), pipe_pout := some (5, 6), pipe_pok := some (7, 8),
    fork_ret := -1, handshake := [], create_rv := 0,
    execve_ok := true, sentinel_rv := 1, waits := fun _ => ⟨0, 0, 0⟩ }

/-- Environment of `main` around `fork_fail_env`. -/
def fork_fail_main_env : MainEnv :=
  { key_tx := 11, key_rx := 12, msgget_rx := 1, msgget_tx := 2, start := fork_fail_env,
    doit := [], waits := fun _ => ⟨0, 0, 0⟩ }

/-- Messages handed to msgsnd by the pump, in send order: type, text, size. -/
def pump_messages : List Ev → List (Int × List Byte × Nat)
  | [] => []
  | Ev.msgsnd _ mtype mtext msgsz :: rest => (mtype, mtext, msgsz) :: pump_messages rest
  | _ :: rest => pump_messages rest

/-- Specification of the pump: the byte chunks of the positive reads, in
read order, up to the first end of file or hard read error, select error or
send failure (a failed fcntl probe, the closed descriptor, also ends it); a
read that failed with EINTR or EAGAIN contributes nothing. -/
def reads_forwarded : List PumpIter → List (List Byte)
  | [] => []
  | it :: rest =>
    if it.fcntl_rv = -1 then []
    else if it.r < 0 ∧ (it.errno = EINTR ∨ it.errno = EAGAIN) then
      if it.select_rv = -1 then [] else reads_forwarded rest
    else if it.r ≤ 0 then []
    else if it.msgsnd_rv = -1 then [it.data]
    else it.data :: reads_forwarded rest

/-- Contract of `read (rfd, buf, BUFSIZ - 1)`: a positive result is at most
the count asked for and is the number of bytes stored. -/
def PumpIter.read_ok (it : PumpIter) : Prop :=
  0 < it.r → it.r ≤ (BUFSIZ : Int) - 1 ∧ it.data.length = it.r.toNat

/-- A pump script: two chunks are read with a would-block read in between,
then the pipe reports end of file. -/
def pump_script : List PumpIter :=
  [ { fcntl_rv := 0, r := 3, data := [104, 105, 10], errno := 0, select_rv := 0, msgsnd_rv := 0 },
    { fcntl_rv := 0, r := -1, data := [], errno := EAGAIN, select_rv := 0, msgsnd_rv := 0 },
    { fcntl_rv := 0, r := 2, data := [0, 255], errno := 0, select_rv := 0, msgsnd_rv := 0 },
    { fcntl_rv := 0, r := 0, data := [], errno := 0, select_rv := 0, msgsnd_rv := 0 } ]

/-- Contract of `msgrcv` with a buffer of BUFSIZ bytes: the result is -1 or
a size between 0 and BUFSIZ. -/
def DoitIter.rcv_ok (it : DoitIter) : Prop :=
  -1 ≤ it.rcv.rv ∧ it.rcv.rv ≤ (BUFSIZ : Int)

/-- Every write of the iteration either fails with EINTR or EAGAIN or takes
the whole message. -/
def DoitIter.writes_whole (it : DoitIter) : Prop :=
  ∀ o ∈ it.writes, (o.r < 0 ∧ (o.errno = EINTR ∨ o.errno = EAGAIN)) ∨ o.r = it.rcv.rv

/-- An iteration of the receive loop that goes on: the flag `terminated` is
clear, msgrcv respects its contract and fails only with ENOMSG, and for a
message taken from the queue some write is not an EINTR or EAGAIN failure,
so that `write_to_stdin` returns. -/
def DoitIter.relays (it : DoitIter) : Prop :=
  it.terminated = 0 ∧ it.rcv_ok ∧ (it.rcv.rv = -1 → it.rcv.errno = ENOMSG)
  ∧ (it.rcv.rv ≠ -1 →
      ∃ o ∈ it.writes, ¬ (o.r < 0 ∧ (o.errno = EINTR ∨ o.errno = EAGAIN)))

/-- Environment of `start` in which pipe (pin) gives the descriptors 3 and
4 and pipe (pout) fails. -/
def pipe_fail_env : StartEnv :=
  { pipe_pin := some (3, 4), pipe_pout := none, pipe_pok := none,
    fork_ret := 0, handshake := [], create_rv := 0,
    execve_ok := false, sentinel_rv := 1, waits := fun _ => ⟨0, 0, 0⟩ }

/-- Environment of `main` around `pipe_fail_env`. -/
def pipe_fail_main_env : MainEnv :=
  { key_tx := 11, key_rx := 12, msgget_rx := 1, msgget_tx := 2, start := pipe_fail_env,
    doit := [], waits := fun _ => ⟨0, 0, 0⟩ }

/-- The globals when `start` has returned -1 on `pipe_fail_env`: no child,
the stdin pipe open on 3 and 4, pout still as initialised. -/
def pipe_fail_globals : Globals :=
  { init_globals static_globals with pin0 := 3, pin1 := 4 }

/-- The receive-loop iterations of a relay: an empty poll, the message 104,
105, 10 written after one interrupted write, the message 111, 10. -/
def relay_body : List DoitIter :=
  [ { terminated := 0, rcv := ⟨-1, [], ENOMSG⟩, writes := [] },
    { terminated := 0, rcv := ⟨3, [104, 105, 10], 0⟩, writes := [⟨-1, EINTR⟩, ⟨3, 0⟩] },
    { terminated := 0, rcv := ⟨2, [111, 10], 0⟩, writes := [⟨2, 0⟩] } ]

/-- The iteration in which the flag `terminated` is seen set. -/
def relay_stop : DoitIter :=
  { terminated := 1, rcv := ⟨-1, [], 0⟩, writes := [] }

/-- The messages the queue hands to the receive loop over a script, in
order: a msgrcv that returned rv, not -1, delivered a message of rv bytes,
the first rv bytes of the buffer. -/
def queue_messages : List DoitIter → List (List Byte)
  | [] => []
  | it :: rest =>
    if it.rcv.rv = -1 then queue_messages rest
    else it.rcv.mtext.take it.rcv.rv.toNat :: queue_messages rest

end IpcServer

namespace IpcClient

/-- Errno of a failed msgsnd that is not the queue-full condition. -/
def EINVAL : Int := 22

/-- Script of msgsnd results: the first call fails with EINVAL, later calls
succeed. -/
def snd_hard_error_first : Nat → SendOutcome := fun k =>
  if k = 0 then ⟨-1, EINVAL⟩ else ⟨0, 0⟩

/-- Script of msgsnd results: every call fails with EAGAIN, the queue stays
full. -/
def snd_always_full : Nat → SendOutcome := fun _ => ⟨-1, EAGAIN⟩

/-- Script of msgsnd results: every call succeeds. -/
def snd_ok : Nat → SendOutcome := fun _ => ⟨0, 0⟩

/-- The messages the queue accepted from the client, in send order. -/
def sent_messages : List Ev → List (List Byte)
  | [] => []
  | Ev.msgsnd _ _ mtext _ rv :: rest =>
    if rv = -1 then sent_messages rest else mtext :: sent_messages rest
  | _ :: rest => sent_messages rest

end IpcClient

/-! ## Theorems -/

namespace IpcServer

/-- With no child, the stdin pipe closed and no pump thread, `terminate`
only takes and releases the lock. -/
theorem terminate_noop (o : Nat → WaitOutcome) (w : World) (h : NoChild w.g) :
    terminate o w =
      ({ w with trace := w.trace ++ [Ev.mutex_lock, Ev.mutex_unlock] }, true) := by
  obtain ⟨hpid, hpin, hth⟩ := h
  obtain ⟨g, tr, n⟩ := w
  cases g
  simp only at hpid hpin hth
  subst hpid hth
  simp [terminate, close_stdin, _wait, World.emit, hpin]

/-- After `terminate` the stdin pipe end is closed and no pump thread is
recorded as active. -/
theorem terminate_leaves_closed (o : Nat → WaitOutcome) (w : World) :
    (terminate o w).1.g.pin1 < 0 ∧ (terminate o w).1.g.thread_active = false := by
  have hc : (close_stdin (w.emit Ev.mutex_lock)).g.pin1 < 0 := by
    unfold close_stdin
    split_ifs with h
    · exact h
    · simp
  have hw : ∀ (opt : Int) (v : World), (_wait o opt v).1.g.pin1 = v.g.pin1 := by
    intro opt v
    unfold _wait
    dsimp only
    split_ifs <;> rfl
  have he : ∀ (v : World) (e : Ev), (v.emit e).g = v.g := fun _ _ => rfl
  unfold terminate
  dsimp only
  split_ifs <;> exact ⟨by simpa only [he, hw] using hc, rfl⟩

/-- The function `terminate` is the sequence of its steps. -/
theorem terminate_steps (o : Nat → WaitOutcome) (w : World) :
    terminate o w =
      terminate_finish (_wait o 0 (terminate_sigkill (terminate_sigterm o
        (terminate_poll o (close_stdin (w.emit Ev.mutex_lock)))))).1 := rfl

/-- If `terminate` returns, its assertion held: pid is 0. -/
theorem terminate_returns_pid (o : Nat → WaitOutcome) (w : World)
    (h : (terminate o w).2 = true) : (terminate o w).1.g.pid = 0 := by
  rw [terminate_steps] at h ⊢
  generalize (_wait o 0 (terminate_sigkill (terminate_sigterm o
        (terminate_poll o (close_stdin (w.emit Ev.mutex_lock)))))).1 = v at h ⊢
  by_cases ha : v.g.thread_active = true <;> by_cases hb : v.g.pid = 0 <;>
    simp_all [terminate_finish, World.emit]

/-- A poll that reports the child running changes only the trace and the
count of waitpid calls. -/
theorem _wait_running (o : Nat → WaitOutcome) (opt : Int) (v : World) (hp : v.g.pid ≠ 0)
    (h : (o v.nwait).ret = 0) :
    (_wait o opt v).1 =
      { v with trace := v.trace ++ [Ev.waitpid v.g.pid opt], nwait := v.nwait + 1 } := by
  have hp1 : (0 : Int) ≠ v.g.pid := fun h0 => hp h0.symm
  simp [_wait, hp, h, hp1]

/-- The last blocking reap adds one waitpid event when a child is recorded. -/
theorem _wait_trace (o : Nat → WaitOutcome) (opt : Int) (v : World) (hp : v.g.pid ≠ 0) :
    (_wait o opt v).1.trace = v.trace ++ [Ev.waitpid v.g.pid opt]
    ∧ (_wait o opt v).1.g.thread_active = v.g.thread_active := by
  unfold _wait
  dsimp only
  rw [if_neg hp]
  split_ifs <;> exact ⟨rfl, rfl⟩

/-- Closing the pipe ends leaves pid, the pump flag and the waitpid count. -/
theorem close_stdin_keeps (w : World) :
    (close_stdin w).g.pid = w.g.pid ∧ (close_stdin w).nwait = w.nwait
    ∧ (close_stdin w).g.thread_active = w.g.thread_active := by
  unfold close_stdin
  split_ifs <;> exact ⟨rfl, rfl, rfl⟩

/-- State of `terminate` before the blocking reap when a child is running
and both polls report it running: SIGTERM, then SIGKILL were sent. -/
theorem terminate_escalation_state (o : Nat → WaitOutcome) (v : World) (hp : v.g.pid ≠ 0)
    (h1 : (o v.nwait).ret = 0) (h2 : (o (v.nwait + 1)).ret = 0) :
    terminate_sigkill (terminate_sigterm o (terminate_poll o v)) =
      ⟨v.g, v.trace ++ [Ev.usleep 200000, Ev.sched_yield, Ev.waitpid v.g.pid WNOHANG,
                  Ev.kill v.g.pid SIGTERM, Ev.usleep 250000, Ev.sched_yield,
                  Ev.waitpid v.g.pid WNOHANG, Ev.log_sigkill, Ev.kill v.g.pid SIGKILL],
       v.nwait + 2⟩ := by
  obtain ⟨vg, vt, vn⟩ := v
  simp only at hp h1 h2
  have e1 : terminate_poll o ⟨vg, vt, vn⟩ =
      ⟨vg, vt ++ [Ev.usleep 200000, Ev.sched_yield, Ev.waitpid vg.pid WNOHANG], vn + 1⟩ := by
    unfold terminate_poll
    rw [if_pos hp, _wait_running o WNOHANG
      (((⟨vg, vt, vn⟩ : World).emit (Ev.usleep 200000)).emit Ev.sched_yield) hp h1]
    simp [World.emit]
  have e2 : terminate_sigterm o
      ⟨vg, vt ++ [Ev.usleep 200000, Ev.sched_yield, Ev.waitpid vg.pid WNOHANG], vn + 1⟩ =
      ⟨vg, vt ++ [Ev.usleep 200000, Ev.sched_yield, Ev.waitpid vg.pid WNOHANG,
                  Ev.kill vg.pid SIGTERM, Ev.usleep 250000, Ev.sched_yield,
                  Ev.waitpid vg.pid WNOHANG], vn + 2⟩ := by
    unfold terminate_sigterm
    rw [if_pos hp, _wait_running o WNOHANG
      ((((⟨vg, vt ++ [Ev.usleep 200000, Ev.sched_yield, Ev.waitpid vg.pid WNOHANG],
            vn + 1⟩ : World).emit (Ev.kill vg.pid SIGTERM)).emit (Ev.usleep 250000)).emit
        Ev.sched_yield) hp h2]
    simp [World.emit]
  rw [e1, e2]
  unfold terminate_sigkill
  rw [if_pos hp]
  simp [World.emit]

/-- Escalation: when a child is running and both polls report it running,
`terminate` closes the pipe ends, sends SIGTERM, then SIGKILL, makes one
blocking waitpid call and joins the pump thread if it is active, in this
order; the last event is the unlock, or the failed assertion. -/
theorem terminate_escalation (o : Nat → WaitOutcome) (w : World) (hpid : w.g.pid ≠ 0)
    (h1 : (o w.nwait).ret = 0) (h2 : (o (w.nwait + 1)).ret = 0) :
    ∃ last, (last = Ev.mutex_unlock ∨ last = Ev.assert_fail) ∧
      (terminate o w).1.trace =
        (close_stdin (w.emit Ev.mutex_lock)).trace
          ++ [Ev.usleep 200000, Ev.sched_yield, Ev.waitpid w.g.pid WNOHANG,
              Ev.kill w.g.pid SIGTERM, Ev.usleep 250000, Ev.sched_yield,
              Ev.waitpid w.g.pid WNOHANG,
              Ev.log_sigkill, Ev.kill w.g.pid SIGKILL, Ev.waitpid w.g.pid 0]
          ++ (if w.g.thread_active then [Ev.pthread_join] else []) ++ [last] := by
  obtain ⟨hc, hn, ht⟩ := close_stdin_keeps (w.emit Ev.mutex_lock)
  change _ = w.g.pid at hc
  change _ = w.nwait at hn
  change _ = w.g.thread_active at ht
  rw [terminate_steps]
  generalize close_stdin (w.emit Ev.mutex_lock) = v at hc hn ht
  rw [← hn] at h1 h2
  have hp : v.g.pid ≠ 0 := by rw [hc]; exact hpid
  rw [terminate_escalation_state o v hp h1 h2, ← hc, ← ht]
  obtain ⟨hw1, hw2⟩ := _wait_trace o 0
    ⟨v.g, v.trace ++ [Ev.usleep 200000, Ev.sched_yield, Ev.waitpid v.g.pid WNOHANG,
                  Ev.kill v.g.pid SIGTERM, Ev.usleep 250000, Ev.sched_yield,
                  Ev.waitpid v.g.pid WNOHANG, Ev.log_sigkill, Ev.kill v.g.pid SIGKILL],
       v.nwait + 2⟩ hp
  generalize (_wait o 0 _).1 = u at hw1 hw2
  simp only at hw1 hw2
  rw [← hw2]
  refine ⟨if u.g.pid = 0 then Ev.mutex_unlock else Ev.assert_fail, ?_, ?_⟩
  · split_ifs
    · exact Or.inl rfl
    · exact Or.inr rfl
  · by_cases ha : u.g.thread_active = true <;> by_cases hb : u.g.pid = 0 <;>
      simp [terminate_finish, World.emit, hw1, ha, hb]

/-- A reap that collects the child with exit code 0 and no signal leaves pid
as it is. -/
theorem _wait_clean_exit (o : Nat → WaitOutcome) (opt : Int) (v : World) (hp : v.g.pid ≠ 0)
    (hr : (o v.nwait).ret = v.g.pid) (he : WEXITSTATUS (o v.nwait).status = 0)
    (hs : WIFSIGNALED (o v.nwait).status = false) :
    (_wait o opt v).1.g = v.g := by
  simp [_wait, hp, hr, he, hs]

/-- The defect behind the failing assertion, in general: whenever a child is
running at both polls and the blocking reap collects it with exit code 0,
pid is not reset and the assertion of `terminate` fails. -/
theorem terminate_fails_on_clean_exit (o : Nat → WaitOutcome) (w : World) (hpid : w.g.pid ≠ 0)
    (h1 : (o w.nwait).ret = 0) (h2 : (o (w.nwait + 1)).ret = 0)
    (hr : (o (w.nwait + 2)).ret = w.g.pid) (he : WEXITSTATUS (o (w.nwait + 2)).status = 0)
    (hs : WIFSIGNALED (o (w.nwait + 2)).status = false) :
    (terminate o w).2 = false ∧ (terminate o w).1.g.pid = w.g.pid := by
  obtain ⟨hc, hn, -⟩ := close_stdin_keeps (w.emit Ev.mutex_lock)
  change _ = w.g.pid at hc
  change _ = w.nwait at hn
  rw [terminate_steps]
  generalize close_stdin (w.emit Ev.mutex_lock) = v at hc hn
  rw [← hn] at h1 h2 hr he hs
  rw [← hc] at hr ⊢
  have hp : v.g.pid ≠ 0 := by rw [hc]; exact hpid
  rw [terminate_escalation_state o v hp h1 h2]
  have hg := _wait_clean_exit o 0
    ⟨v.g, v.trace ++ [Ev.usleep 200000, Ev.sched_yield, Ev.waitpid v.g.pid WNOHANG,
                  Ev.kill v.g.pid SIGTERM, Ev.usleep 250000, Ev.sched_yield,
                  Ev.waitpid v.g.pid WNOHANG, Ev.log_sigkill, Ev.kill v.g.pid SIGKILL],
       v.nwait + 2⟩ hp hr he hs
  generalize (_wait o 0 _).1 = u at hg
  simp only at hg
  have hu : u.g.pid ≠ 0 := by rw [hg]; exact hp
  have hpu : u.g.pid = v.g.pid := by rw [hg]
  clear hg
  by_cases ha : u.g.thread_active = true <;>
    simp [terminate_finish, World.emit, ha, hpu, hp]

/-- Events recorded before a reap are still in the trace after it. -/
theorem _wait_keeps_events (o : Nat → WaitOutcome) (opt : Int) (v : World) (e : Ev)
    (h : e ∈ v.trace) : e ∈ (_wait o opt v).1.trace := by
  by_cases hp : v.g.pid = 0
  · simpa [_wait, hp] using h
  · rw [(_wait_trace o opt v hp).1]
    exact List.mem_append_left _ h

/-- Events recorded before the SIGKILL step are still in the trace after it. -/
theorem terminate_sigkill_keeps_events (v : World) (e : Ev) (h : e ∈ v.trace) :
    e ∈ (terminate_sigkill v).trace := by
  unfold terminate_sigkill
  split_ifs
  · simp [World.emit, h]
  · exact h

/-- Events recorded before the last step are still in the trace after it. -/
theorem terminate_finish_keeps_events (v : World) (e : Ev) (h : e ∈ v.trace) :
    e ∈ (terminate_finish v).1.trace := by
  by_cases ha : v.g.thread_active = true <;> by_cases hb : v.g.pid = 0 <;>
    simp [terminate_finish, World.emit, ha, hb, h]

/-- The defect behind the signal to a reaped child, in general: whenever the
first poll collects the child with exit code 0, pid is not reset and SIGTERM
is sent to that pid. -/
theorem terminate_sigterm_after_clean_reap (o : Nat → WaitOutcome) (w : World)
    (hpid : w.g.pid ≠ 0) (hr : (o w.nwait).ret = w.g.pid)
    (he : WEXITSTATUS (o w.nwait).status = 0) (hs : WIFSIGNALED (o w.nwait).status = false) :
    Ev.kill w.g.pid SIGTERM ∈ (terminate o w).1.trace := by
  obtain ⟨hc, hn, -⟩ := close_stdin_keeps (w.emit Ev.mutex_lock)
  change _ = w.g.pid at hc
  change _ = w.nwait at hn
  rw [terminate_steps]
  generalize close_stdin (w.emit Ev.mutex_lock) = v at hc hn
  rw [← hn] at hr he hs
  rw [← hc] at hr ⊢
  have hp : v.g.pid ≠ 0 := by rw [hc]; exact hpid
  apply terminate_finish_keeps_events
  apply _wait_keeps_events
  apply terminate_sigkill_keeps_events
  have hg : (terminate_poll o v).g = v.g := by
    unfold terminate_poll
    rw [if_pos hp]
    exact _wait_clean_exit o WNOHANG ((v.emit (Ev.usleep 200000)).emit Ev.sched_yield) hp hr he hs
  generalize terminate_poll o v = u at hg
  have hup : u.g.pid ≠ 0 := by rw [hg]; exact hp
  unfold terminate_sigterm
  rw [if_pos hup]
  apply _wait_keeps_events
  simp [World.emit, hg]

/-- C2, evaluated at a failing input: child 1234 is still running at both
polls and then exits with code 0, so the blocking reap returns it with wait
status 0.  `_wait` resets pid only for a nonzero exit status or a signal, so
`terminate` ends with pid = 1234 and its final assertion fails. -/
theorem terminate_assert_fails_on_clean_exit :
    (terminate waits_late_clean_exit ⟨running_globals, [], 0⟩).1.g.pid = 1234
    ∧ (terminate waits_late_clean_exit ⟨running_globals, [], 0⟩).2 = false
    ∧ (terminate waits_late_clean_exit ⟨running_globals, [], 0⟩).1.trace.getLast? =
        some Ev.assert_fail := by
  decide

/-- C3, evaluated at a failing input: both polls report child 4321 running,
the actions come in the escalation order (close of the stdin write end,
SIGTERM, SIGKILL, one blocking waitpid), but the blocking reap returns the
child with wait status 0 and pid is still 4321 when `terminate` ends. -/
theorem terminate_escalates_but_keeps_pid :
    terminate waits_ignores_then_exits ⟨running_globals_no_pump, [], 0⟩ =
      (⟨{ running_globals_no_pump with pin1 := -1, pout0 := -1 },
        [Ev.mutex_lock, Ev.close 7, Ev.close 8,
         Ev.usleep 200000, Ev.sched_yield, Ev.waitpid 4321 WNOHANG,
         Ev.kill 4321 SIGTERM, Ev.usleep 250000, Ev.sched_yield, Ev.waitpid 4321 WNOHANG,
         Ev.log_sigkill, Ev.kill 4321 SIGKILL,
         Ev.waitpid 4321 0, Ev.assert_fail], 3⟩, false)
    ∧ (terminate waits_ignores_then_exits ⟨running_globals_no_pump, [], 0⟩).1.g.pid ≠ 0 := by
  decide

/-- C4, evaluated at a failing input: child 1234 has already exited with
code 0 and the first poll collects it (waitpid returns 1234, wait status 0);
pid is not reset, and SIGTERM is then sent to the reaped pid 1234. -/
theorem terminate_signals_reaped_child :
    terminate waits_early_clean_exit ⟨running_globals, [], 0⟩ =
      (⟨{ running_globals with pid := 0, pin1 := -1, pout0 := -1, thread_active := false },
        [Ev.mutex_lock, Ev.close 5, Ev.close 6,
         Ev.usleep 200000, Ev.sched_yield, Ev.waitpid 1234 WNOHANG,
         Ev.kill 1234 SIGTERM, Ev.usleep 250000, Ev.sched_yield, Ev.waitpid 1234 WNOHANG,
         Ev.pthread_join, Ev.mutex_unlock], 2⟩, true) := by
  decide

/-- C5, the claim as stated fails: `start` returns -1 when pipe (pout)
fails, leaving pid = 0 with the stdin pipe open on 3 and 4, and `main` then
calls `terminate`.  In that state with no child `terminate` is not a no-op:
it closes descriptors and sets pin and pout to -1.  It is not a no-op either
in a state with pid = 0 and the pump thread marked active: it joins the
thread and clears the mark. -/
theorem terminate_closes_pipe_without_child :
    start pipe_fail_env ⟨init_globals static_globals, [], 0⟩ =
      some (⟨pipe_fail_globals, [Ev.pipe, Ev.pipe], 0⟩, Exit.returned (-1))
    ∧ pipe_fail_globals.pid = 0
    ∧ terminate (fun _ => ⟨0, 0, 0⟩) ⟨pipe_fail_globals, [], 0⟩ =
        (⟨{ pipe_fail_globals with pin0 := -1, pin1 := -1, pout0 := -1, pout1 := -1 },
          [Ev.mutex_lock, Ev.close 3, Ev.close 4, Ev.close 0, Ev.close 0, Ev.mutex_unlock],
          0⟩, true)
    ∧ (terminate (fun _ => ⟨0, 0, 0⟩) ⟨pipe_fail_globals, [], 0⟩).1.g ≠ pipe_fail_globals
    ∧ terminate (fun _ => ⟨0, 0, 0⟩)
        ⟨{ init_globals static_globals with thread_active := true }, [], 0⟩ =
        (⟨init_globals static_globals,
          [Ev.mutex_lock, Ev.pthread_join, Ev.mutex_unlock], 0⟩, true)
    ∧ (main pipe_fail_main_env).map (fun p => (p.1.trace, p.2)) =
        some ([Ev.pipe, Ev.pipe, Ev.log_start_failed (-1), Ev.mutex_lock, Ev.close 3,
               Ev.close 4, Ev.close 0, Ev.close 0, Ev.mutex_unlock, Ev.msgctl_rmid 2,
               Ev.msgctl_rmid 1, Ev.unlink], Exit.returned (-1)) := by
  decide

/-- C5 as amended: in a state with no child, the stdin pipe closed and no
pump thread (pid = 0, pin[1] < 0, thread_active false), as set by
`init_globals` or left by a `terminate` that returned, `terminate` changes
no global, closes no descriptor, sends no signal, makes no waitpid call and
passes its assertion: it only takes and releases the lock.  So a second
`terminate` leaves the state of the first. -/
theorem terminate_idempotent :
    (∀ (g : Globals), NoChild (init_globals g))
    ∧ (∀ (o : Nat → WaitOutcome) (w : World),
        (terminate o w).2 = true → NoChild (terminate o w).1.g)
    ∧ (∀ (o : Nat → WaitOutcome) (w : World), NoChild w.g →
        terminate o w =
          ({ w with trace := w.trace ++ [Ev.mutex_lock, Ev.mutex_unlock] }, true))
    ∧ (∀ (o1 o2 : Nat → WaitOutcome) (w : World), (terminate o1 w).2 = true →
        (terminate o2 (terminate o1 w).1).1.g = (terminate o1 w).1.g
        ∧ (terminate o2 (terminate o1 w).1).1.trace =
            (terminate o1 w).1.trace ++ [Ev.mutex_lock, Ev.mutex_unlock]
        ∧ (terminate o2 (terminate o1 w).1).2 = true) := by
  have h2 : ∀ (o : Nat → WaitOutcome) (w : World),
      (terminate o w).2 = true → NoChild (terminate o w).1.g :=
    fun o w h => ⟨terminate_returns_pid o w h, (terminate_leaves_closed o w).1,
      (terminate_leaves_closed o w).2⟩
  refine ⟨?_, h2, terminate_noop, ?_⟩
  · intro g
    exact ⟨rfl, by simp [init_globals], rfl⟩
  · intro o1 o2 w h
    rw [terminate_noop o2 _ (h2 o1 w h)]
    exact ⟨rfl, rfl, rfl⟩

/-- C5 as amended, at a concrete input: termination of the running child
1234 killed by SIGKILL (wait status 9), followed by a second `terminate`. -/
theorem terminate_idempotent_witness :
    (terminate (fun _ => ⟨0, 0, 0⟩)
        (terminate (fun k => if k = 2 then ⟨1234, 9, 0⟩ else ⟨0, 0, 0⟩)
          ⟨running_globals, [], 0⟩).1).1.g =
      { running_globals with pid := 0, pin1 := -1, pout0 := -1, thread_active := false }
    ∧ (terminate (fun _ => ⟨0, 0, 0⟩) ⟨init_globals static_globals, [], 0⟩).1.trace =
        [Ev.mutex_lock, Ev.mutex_unlock] :=
  ⟨((terminate_idempotent.2.2.2 (fun k => if k = 2 then ⟨1234, 9, 0⟩ else ⟨0, 0, 0⟩)
        (fun _ => ⟨0, 0, 0⟩) ⟨running_globals, [], 0⟩ (by decide)).1).trans (by decide),
   by rw [terminate_idempotent.2.2.1 (fun _ => ⟨0, 0, 0⟩) ⟨init_globals static_globals, [], 0⟩
        (terminate_idempotent.1 static_globals)]
      rfl⟩

/-- Retried reads followed by a read of one byte: the loop reports the byte. -/
theorem handshake_loop_byte (fd : Int) (pre : List ReadOutcome) (o : ReadOutcome)
    (post : List ReadOutcome) (hpre : ∀ x ∈ pre, x.transient) (ho : o.n = 1) :
    handshake_loop fd (pre ++ o :: post) =
      some (true, List.replicate (pre.length + 1) (Ev.read fd 1)) := by
  induction pre with
  | nil => simp [handshake_loop, ho]
  | cons x xs ih =>
    have hx : x.transient := hpre x (List.mem_cons_self x xs)
    have hx1 : x.n ≠ 1 := by rw [hx.1]; decide
    have ih1 := ih (fun y hy => hpre y (List.mem_cons_of_mem x hy))
    simp [handshake_loop, hx1, hx.1, hx.2, ih1, List.replicate_succ]

/-- Retried reads followed by a read that is neither one byte nor a retried
failure: the loop breaks. -/
theorem handshake_loop_break (fd : Int) (pre : List ReadOutcome) (o : ReadOutcome)
    (post : List ReadOutcome) (hpre : ∀ x ∈ pre, x.transient) (ho : o.n ≠ 1)
    (hot : ¬ o.transient) :
    handshake_loop fd (pre ++ o :: post) =
      some (false, List.replicate (pre.length + 1) (Ev.read fd 1)) := by
  induction pre with
  | nil =>
    have : ¬ (o.n = -1 ∧ (o.errno = EAGAIN ∨ o.errno = EINTR)) := hot
    simp [handshake_loop, ho, this]
  | cons x xs ih =>
    have hx : x.transient := hpre x (List.mem_cons_self x xs)
    have hx1 : x.n ≠ 1 := by rw [hx.1]; decide
    have ih1 := ih (fun y hy => hpre y (List.mem_cons_of_mem x hy))
    simp [handshake_loop, hx1, hx.1, hx.2, ih1, List.replicate_succ]

/-- The loop reports a byte only after retried reads and a read of one byte. -/
theorem handshake_loop_true_inv (fd : Int) (s : List ReadOutcome) (evs : List Ev)
    (h : handshake_loop fd s = some (true, evs)) :
    ∃ pre o post, s = pre ++ o :: post ∧ (∀ x ∈ pre, x.transient) ∧ o.n = 1 := by
  induction s generalizing evs with
  | nil => simp [handshake_loop] at h
  | cons x xs ih =>
    unfold handshake_loop at h
    split_ifs at h with h1 h2
    · exact ⟨[], x, xs, rfl, by simp, h1⟩
    · cases hr : handshake_loop fd xs with
      | none => simp [hr] at h
      | some p =>
        obtain ⟨b, e⟩ := p
        simp [hr] at h
        obtain ⟨hb, -⟩ := h
        subst hb
        obtain ⟨pre, o, post, hs, hpre, ho⟩ := ih e hr
        refine ⟨x :: pre, o, post, by simp [hs], ?_, ho⟩
        intro y hy
        rcases List.mem_cons.mp hy with rfl | hy
        · exact h2
        · exact hpre y hy
    · simp at h

/-- State and events of `start` when the handshake read delivers the
sentinel byte after `pre.length` retried reads. -/
theorem start_sentinel (env : StartEnv) (w : World) (pi po pk : Int × Int)
    (pre : List ReadOutcome) (o : ReadOutcome) (post : List ReadOutcome)
    (hpin : env.pipe_pin = some pi) (hpout : env.pipe_pout = some po)
    (hpok : env.pipe_pok = some pk) (hfork : 0 < env.fork_ret)
    (hs : env.handshake = pre ++ o :: post) (hpre : ∀ x ∈ pre, x.transient) (ho : o.n = 1) :
    start env w =
      some (⟨{ w.g with pid := 0, pok0 := -1, pok1 := -1, pin0 := -1, pin1 := -1,
                        pout0 := -1, pout1 := -1 },
             w.trace ++ [Ev.pipe, Ev.pipe, Ev.pipe, Ev.fork] ++ close_fd pk.2
               ++ List.replicate (pre.length + 1) (Ev.read pk.1 1) ++ close_fd pk.1
               ++ close_fd pi.2 ++ close_fd pi.1 ++ close_fd po.2 ++ close_fd po.1,
             w.nwait⟩, Exit.returned (-3)) := by
  have hl := handshake_loop_byte pk.1 pre o post hpre ho
  simp [start, start_parent, hpin, hpout, hpok, hfork, hs, hl, close_fd]

/-- Result of `start` when the handshake read breaks out of the loop (end of
file or a hard error) and the pump thread is created. -/
theorem start_ready (env : StartEnv) (w : World) (pi po pk : Int × Int)
    (pre : List ReadOutcome) (o : ReadOutcome) (post : List ReadOutcome)
    (hpin : env.pipe_pin = some pi) (hpout : env.pipe_pout = some po)
    (hpok : env.pipe_pok = some pk) (hfork : 0 < env.fork_ret)
    (hs : env.handshake = pre ++ o :: post) (hpre : ∀ x ∈ pre, x.transient)
    (ho : o.n ≠ 1) (hot : ¬ o.transient) (hc : env.create_rv = 0) :
    start env w =
      some (⟨{ w.g with pid := env.fork_ret, pok0 := -1, pok1 := -1, pin0 := -1, pin1 := pi.2,
                        pout0 := po.1, pout1 := -1, thread_active := true },
             w.trace ++ [Ev.pipe, Ev.pipe, Ev.pipe, Ev.fork] ++ close_fd pk.2
               ++ List.replicate (pre.length + 1) (Ev.read pk.1 1) ++ close_fd pk.1
               ++ close_fd po.2 ++ close_fd pi.1 ++ [Ev.pthread_create],
             w.nwait⟩, Exit.returned 0) := by
  have hl := handshake_loop_break pk.1 pre o post hpre ho hot
  simp [start, start_parent, hpin, hpout, hpok, hfork, hs, hl, hc, close_fd]

/-- The value -3 is returned by `start` only from the parent branch, after
retried handshake reads and a read of one byte. -/
theorem start_sentinel_inv (env : StartEnv) (w w1 : World)
    (h : start env w = some (w1, Exit.returned (-3))) :
    0 < env.fork_ret ∧
      ∃ pre o post, env.handshake = pre ++ o :: post ∧ (∀ x ∈ pre, x.transient) ∧ o.n = 1 := by
  unfold start at h
  split at h
  · simp at h
  · split at h
    · simp at h
    · split at h
      · simp at h
      · split_ifs at h with hf
        · refine ⟨hf, ?_⟩
          unfold start_parent at h
          try dsimp only at h
          split at h
          · simp at h
          · rename_i evs hl
            exact handshake_loop_true_inv _ _ evs hl
          · split_ifs at h <;> simp at h
        · unfold start_child at h
          try dsimp only at h
          split_ifs at h <;> simp at h

/-- When the handshake read delivers the sentinel byte, `main` logs the
failure, returns -3, has called close on every open pipe descriptor, and
neither creates the pump thread nor calls `doit`. -/
theorem main_sentinel (menv : MainEnv) (pi po pk : Int × Int)
    (pre : List ReadOutcome) (o : ReadOutcome) (post : List ReadOutcome)
    (hk1 : menv.key_rx ≠ -1) (hk2 : menv.key_tx ≠ -1)
    (hq1 : menv.msgget_rx ≠ -1) (hq2 : menv.msgget_tx ≠ -1)
    (hpin : menv.start.pipe_pin = some pi) (hpout : menv.start.pipe_pout = some po)
    (hpok : menv.start.pipe_pok = some pk) (hfork : 0 < menv.start.fork_ret)
    (hs : menv.start.handshake = pre ++ o :: post) (hpre : ∀ x ∈ pre, x.transient)
    (ho : o.n = 1) :
    ∃ w1, main menv = some (w1, Exit.returned (-3)) ∧ Ev.log_start_failed (-3) ∈ w1.trace
      ∧ Ev.call_doit ∉ w1.trace ∧ Ev.pthread_create ∉ w1.trace
      ∧ (∀ fd ∈ [pk.1, pk.2, pi.1, pi.2, po.1, po.2], 0 ≤ fd → Ev.close fd ∈ w1.trace) := by
  have hst := fun w => start_sentinel menv.start w pi po pk pre o post hpin hpout hpok hfork
    hs hpre ho
  have hno : ∀ (w : World), w.g.pid = 0 → w.g.pin1 = -1 → w.g.thread_active = false →
      terminate menv.waits w =
        ({ w with trace := w.trace ++ [Ev.mutex_lock, Ev.mutex_unlock] }, true) :=
    fun w h1 h2 h3 => terminate_noop _ w ⟨h1, by rw [h2]; decide, h3⟩
  simp [main, open_ipcmsg_ctrl, hk1, hk2, hq1, hq2, hst, main_switch]
  rw [hno _ rfl rfl rfl]
  simp [World.emit, close_ipc_queues, close_fd, List.mem_replicate]
  refine ⟨?_, ?_, ?_, ?_, ?_, ?_⟩ <;> intro hfd <;> simp [hfd]

/-- C1: with the pipes created and fork returning a child pid, `start`
returns -3 exactly when the handshake read, after any number of reads that
failed with EINTR or EAGAIN, delivers one byte.  Then the result is not 0,
pid is 0, the six pipe descriptors are -1 and close was called once on each
of them that was open (the events after fork are exactly the close of
pok[1], the reads, and the closes of pok[0], pin[1], pin[0], pout[1],
pout[0]), no pump thread is created or marked active, and `main` logs the
failure, returns -3 and does not call `doit`.  When the read returns 0 after
such retries and pthread_create succeeds, `start` returns 0 with the pump
thread active. -/
theorem start_exec_failure_detection :
    (∀ (env : StartEnv) (w : World) (pi po pk : Int × Int)
        (pre : List ReadOutcome) (o : ReadOutcome) (post : List ReadOutcome),
        env.pipe_pin = some pi → env.pipe_pout = some po → env.pipe_pok = some pk →
        0 < env.fork_ret → env.handshake = pre ++ o :: post →
        (∀ x ∈ pre, x.transient) → o.n = 1 →
        ∃ w1, start env w = some (w1, Exit.returned (-3))
          ∧ start env w ≠ some (w1, Exit.returned 0)
          ∧ w1.g.pid = 0
          ∧ w1.g.pok0 = -1 ∧ w1.g.pok1 = -1 ∧ w1.g.pin0 = -1 ∧ w1.g.pin1 = -1
          ∧ w1.g.pout0 = -1 ∧ w1.g.pout1 = -1
          ∧ w1.g.thread_active = w.g.thread_active
          ∧ (Ev.pthread_create ∈ w1.trace → Ev.pthread_create ∈ w.trace)
          ∧ w1.trace = w.trace ++ [Ev.pipe, Ev.pipe, Ev.pipe, Ev.fork]
              ++ (if 0 ≤ pk.2 then [Ev.close pk.2] else [])
              ++ List.replicate (pre.length + 1) (Ev.read pk.1 1)
              ++ (if 0 ≤ pk.1 then [Ev.close pk.1] else [])
              ++ (if 0 ≤ pi.2 then [Ev.close pi.2] else [])
              ++ (if 0 ≤ pi.1 then [Ev.close pi.1] else [])
              ++ (if 0 ≤ po.2 then [Ev.close po.2] else [])
              ++ (if 0 ≤ po.1 then [Ev.close po.1] else [])
          ∧ (∀ fd ∈ [pk.1, pk.2, pi.1, pi.2, po.1, po.2], 0 ≤ fd → Ev.close fd ∈ w1.trace))
    ∧ (∀ (env : StartEnv) (w w1 : World), start env w = some (w1, Exit.returned (-3)) →
        0 < env.fork_ret ∧
          ∃ pre o post, env.handshake = pre ++ o :: post ∧ (∀ x ∈ pre, x.transient) ∧ o.n = 1)
    ∧ (∀ (menv : MainEnv) (pi po pk : Int × Int)
        (pre : List ReadOutcome) (o : ReadOutcome) (post : List ReadOutcome),
        menv.key_rx ≠ -1 → menv.key_tx ≠ -1 → menv.msgget_rx ≠ -1 → menv.msgget_tx ≠ -1 →
        menv.start.pipe_pin = some pi → menv.start.pipe_pout = some po →
        menv.start.pipe_pok = some pk → 0 < menv.start.fork_ret →
        menv.start.handshake = pre ++ o :: post → (∀ x ∈ pre, x.transient) → o.n = 1 →
        ∃ w1, main menv = some (w1, Exit.returned (-3)) ∧ Ev.log_start_failed (-3) ∈ w1.trace
          ∧ Ev.call_doit ∉ w1.trace ∧ Ev.pthread_create ∉ w1.trace
          ∧ (∀ fd ∈ [pk.1, pk.2, pi.1, pi.2, po.1, po.2], 0 ≤ fd → Ev.close fd ∈ w1.trace))
    ∧ (∀ (env : StartEnv) (w : World) (pi po pk : Int × Int)
        (pre : List ReadOutcome) (o : ReadOutcome) (post : List ReadOutcome),
        env.pipe_pin = some pi → env.pipe_pout = some po → env.pipe_pok = some pk →
        0 < env.fork_ret → env.handshake = pre ++ o :: post →
        (∀ x ∈ pre, x.transient) → o.n = 0 → env.create_rv = 0 →
        ∃ w1, start env w = some (w1, Exit.returned 0)
          ∧ w1.g.pid = env.fork_ret ∧ w1.g.thread_active = true
          ∧ Ev.pthread_create ∈ w1.trace) := by
  refine ⟨?_, start_sentinel_inv, main_sentinel, ?_⟩
  · intro env w pi po pk pre o post hpin hpout hpok hfork hs hpre ho
    have h := start_sentinel env w pi po pk pre o post hpin hpout hpok hfork hs hpre ho
    refine ⟨_, h, ?_, rfl, rfl, rfl, rfl, rfl, rfl, rfl, rfl, ?_, ?_, ?_⟩
    · rw [h]
      simp
    · intro hm
      simp [close_fd, List.mem_replicate] at hm
      exact hm
    · simp only [close_fd]
    · simp only [close_fd]
      intro fd hfd h0
      simp only [List.mem_cons, List.mem_singleton, List.not_mem_nil, or_false] at hfd
      rcases hfd with rfl | rfl | rfl | rfl | rfl | rfl <;> simp [h0]
  · intro env w pi po pk pre o post hpin hpout hpok hfork hs hpre ho hc
    have ho1 : o.n ≠ 1 := by rw [ho]; decide
    have hot : ¬ o.transient := by
      intro ht
      rw [ht.1] at ho
      exact absurd ho (by decide)
    have h := start_ready env w pi po pk pre o post hpin hpout hpok hfork hs hpre ho1 hot hc
    exact ⟨_, h, rfl, rfl, by simp⟩

/-- C1 at a concrete input: the handshake read is interrupted once and then
delivers the sentinel byte; close is called on the descriptors 8, 7, 4, 3, 6
and 5, each once. -/
theorem start_exec_failure_detection_witness :
    ∃ w1, start exec_fail_env ⟨init_globals static_globals, [], 0⟩ =
        some (w1, Exit.returned (-3))
      ∧ w1.g.pid = 0
      ∧ w1.g.pok0 = -1 ∧ w1.g.pok1 = -1 ∧ w1.g.pin0 = -1 ∧ w1.g.pin1 = -1
      ∧ w1.g.pout0 = -1 ∧ w1.g.pout1 = -1
      ∧ w1.g.thread_active = false
      ∧ w1.trace = [Ev.pipe, Ev.pipe, Ev.pipe, Ev.fork, Ev.close 8, Ev.read 7 1, Ev.read 7 1,
          Ev.close 7, Ev.close 4, Ev.close 3, Ev.close 6, Ev.close 5] := by
  obtain ⟨w1, h1, -, h3, h4, h5, h6, h7, h8, h9, h10, -, h12, -⟩ :=
    start_exec_failure_detection.1 exec_fail_env ⟨init_globals static_globals, [], 0⟩
      (3, 4) (5, 6) (7, 8) [⟨-1, EINTR⟩] ⟨1, 0⟩ [] rfl rfl rfl (by decide) rfl
      (by
        intro x hx
        rw [List.mem_singleton.mp hx]
        exact ⟨rfl, Or.inr rfl⟩)
      rfl
  exact ⟨w1, h1, h3, h4, h5, h6, h7, h8, h9, h10, h12.trans (by decide)⟩

/-- C6, evaluated at a failing input: the pipes are created and fork returns
-1.  The test `r > 0` fails, so the supervisor itself runs the branch written
for the child: it redirects its own descriptors 0, 1 and 2 with dup2 and
calls execve on the command.  `start` does not return, and `main` neither
logs the start failure nor returns a failure code. -/
theorem start_fork_failure_runs_child_branch :
    start fork_fail_env ⟨init_globals static_globals, [], 0⟩ =
      some (⟨{ init_globals static_globals with
                pok0 := -1, pok1 := 8, pin0 := -1, pin1 := -1, pout0 := -1, pout1 := -1 },
             [Ev.pipe, Ev.pipe, Ev.pipe, Ev.fork, Ev.close 7, Ev.fcntl_cloexec 8, Ev.close 4,
              Ev.dup2 3 0, Ev.close 3, Ev.close 5, Ev.dup2 6 1, Ev.dup2 6 2, Ev.close 6,
              Ev.execve], 0⟩, Exit.execed)
    ∧ (main fork_fail_main_env).map Prod.snd = some Exit.execed
    ∧ (main fork_fail_main_env).map
        (fun p => decide (Ev.log_start_failed (-1) ∈ p.1.trace)) = some false := by
  decide

/-- At an offset that is not below `bytes` the loop of `write_to_stdin` is
over: the function syncs, unlocks and returns the offset. -/
theorem write_loop_done (fd : Int) (data : List Byte) (bytes c : Nat) (hc : ¬ c < bytes)
    (script : List WriteOutcome) :
    write_loop fd data bytes c script = some (c, [Ev.fsync fd, Ev.mutex_unlock]) := by
  cases script <;> simp [write_loop, hc]

/-- The count returned by `write_to_stdin` is `bytes` or 0: a write that does
not take the whole buffer ends the function at offset 0. -/
theorem write_to_stdin_all_or_nothing (g : Globals) (data : List Byte) (bytes : Nat)
    (hb : bytes < 2 ^ 64) (script : List WriteOutcome) (c : Nat) (evs : List Ev)
    (h : write_to_stdin g data bytes script = some (c, evs)) : c = bytes ∨ c = 0 := by
  unfold write_to_stdin at h
  cases hl : write_loop g.pin1 data bytes 0 script with
  | none => simp [hl] at h
  | some p =>
    simp [hl] at h
    obtain ⟨hc, -⟩ := h
    subst hc
    clear evs
    induction script generalizing p with
    | nil =>
      unfold write_loop at hl
      split_ifs at hl
      simp at hl
      right
      rw [← hl]
    | cons o rest ih =>
      unfold write_loop at hl
      split_ifs at hl with h0 h1 h2
      · cases hr : write_loop g.pin1 data bytes 0 rest with
        | none => simp [hr] at hl
        | some q =>
          simp [hr] at hl
          rw [← hl]
          exact ih q hr
      · simp at hl
        right
        rw [← hl]
      · have h3 : to_size_t o.r = bytes := by simpa using h2
        have h4 : (0 + to_size_t o.r) % 2 ^ 64 = bytes := by
          rw [h3, Nat.zero_add, Nat.mod_eq_of_lt hb]
        rw [h4, write_loop_done _ _ _ _ (lt_irrefl bytes)] at hl
        simp at hl
        left
        rw [← hl]
      · simp at hl
        right
        rw [← hl]

/-- C7, evaluated at a failing input: a buffer of 3 bytes and a write that
accepts only 1 byte.  The pipe took the byte 104, yet `write_to_stdin`
returns the offset before that write, 0, not the 1 byte written. -/
theorem write_to_stdin_short_write_uncounted :
    write_to_stdin running_globals [104, 105, 10] 3 [⟨1, 0⟩] =
      some (0, [Ev.mutex_lock, Ev.write 5 [104, 105, 10] 1, Ev.mutex_unlock])
    ∧ accepted_bytes [Ev.mutex_lock, Ev.write 5 [104, 105, 10] 1, Ev.mutex_unlock] = [104] := by
  decide

/-- Overwriting position n does not change the first n elements. -/
theorem take_set_self (l : List Byte) (n : Nat) (a : Byte) :
    (l.set n a).take n = l.take n := by
  induction l generalizing n with
  | nil => simp
  | cons x xs ih =>
    cases n with
    | zero => simp
    | succ m => simp [ih]

/-- The messages of a trace made of two parts. -/
theorem pump_messages_append (a b : List Ev) :
    pump_messages (a ++ b) = pump_messages a ++ pump_messages b := by
  induction a with
  | nil => rfl
  | cons e es ih => cases e <;> simp [pump_messages, ih]

/-- The loop of the pump sends one message of type 1 per forwarded read,
carrying exactly the bytes of that read. -/
theorem pump_loop_messages (g : Globals) (script : List PumpIter)
    (hwf : ∀ it ∈ script, it.read_ok) (buf : List Byte) :
    pump_messages (pump_loop g buf script).1 =
      (reads_forwarded script).map (fun d => ((1 : Int), d, d.length)) := by
  induction script generalizing buf with
  | nil => rfl
  | cons it rest ih =>
    have hrest : ∀ x ∈ rest, x.read_ok := fun x hx => hwf x (List.mem_cons_of_mem it hx)
    unfold pump_loop reads_forwarded
    split_ifs with h1 h2 h3 h4 h5
    · simp [pump_messages]
    · simp [pump_messages]
    · simp [pump_messages_append, pump_messages, ih hrest]
    · simp [pump_messages]
    all_goals
      have hpos : 0 < it.r := not_le.mp h4
      obtain ⟨hle, hlen⟩ := hwf it (List.mem_cons_self it rest) hpos
      have hlt : ¬ BUFSIZ ≤ it.r.toNat := by
        have : it.r.toNat < BUFSIZ := by
          have h8 : (BUFSIZ : Int) = 8192 := rfl
          have h9 : BUFSIZ = 8192 := rfl
          omega
        omega
      have htake : ((it.data ++ List.drop it.data.length buf).set it.r.toNat 0).take it.r.toNat
          = it.data := by
        rw [take_set_self, List.take_left' hlen]
    · simp [reply, hlt, h5, htake, pump_messages, pump_messages_append, hlen]
    · simp [reply, hlt, h5, htake, pump_messages, pump_messages_append, hlen, ih hrest]

/-- C8: for every script of results on the output pipe whose reads respect
the contract of read, the messages `output_interposer` hands to msgsnd are,
in order, one message of type 1 per forwarded positive read, carrying
exactly the bytes of that read with a size between 1 and BUFSIZ - 1 (so
`reply` rejects none and index r of `buf[r] = 0` is below BUFSIZ); their
texts joined are the bytes read, joined in read order. -/
theorem output_pump_byte_fidelity (g : Globals) (buf : List Byte) (script : List PumpIter)
    (hwf : ∀ it ∈ script, it.read_ok) :
    pump_messages (output_interposer g buf script).1 =
        (reads_forwarded script).map (fun d => ((1 : Int), d, d.length))
    ∧ ((pump_messages (output_interposer g buf script).1).map (fun m => m.2.1)).flatten =
        (reads_forwarded script).flatten
    ∧ (∀ m ∈ pump_messages (output_interposer g buf script).1,
        m.1 = 1 ∧ m.2.1.length = m.2.2 ∧ 1 ≤ m.2.2 ∧ m.2.2 ≤ BUFSIZ - 1 ∧ m.2.2 < BUFSIZ) := by
  have hmsgs : pump_messages (output_interposer g buf script).1 =
      (reads_forwarded script).map (fun d => ((1 : Int), d, d.length)) := by
    unfold output_interposer
    dsimp only
    split_ifs <;>
      simp [pump_messages, pump_messages_append, pump_loop_messages g script hwf buf]
  have hbound : ∀ (s : List PumpIter), (∀ it ∈ s, it.read_ok) →
      ∀ d ∈ reads_forwarded s, 1 ≤ d.length ∧ d.length ≤ BUFSIZ - 1 := by
    intro s
    induction s with
    | nil => intro _ d hd; simp [reads_forwarded] at hd
    | cons it rest ih =>
      intro hs d hd
      have hrest : ∀ x ∈ rest, x.read_ok := fun x hx => hs x (List.mem_cons_of_mem it hx)
      unfold reads_forwarded at hd
      split_ifs at hd with h1 h2 h3 h4 h5
      · simp at hd
      · simp at hd
      · exact ih hrest d hd
      · simp at hd
      all_goals
        have hpos : 0 < it.r := not_le.mp h4
        obtain ⟨hle, hlen⟩ := hs it (List.mem_cons_self it rest) hpos
        have hd0 : 1 ≤ it.data.length ∧ it.data.length ≤ BUFSIZ - 1 := by
          have h8 : (BUFSIZ : Int) = 8192 := rfl
          have h9 : BUFSIZ = 8192 := rfl
          omega
      · rw [List.mem_singleton.mp hd]
        exact hd0
      · rcases List.mem_cons.mp hd with rfl | hd
        · exact hd0
        · exact ih hrest d hd
  refine ⟨hmsgs, ?_, ?_⟩
  · rw [hmsgs, List.map_map]
    simp [Function.comp_def]
  · intro m hm
    rw [hmsgs] at hm
    obtain ⟨d, hd, rfl⟩ := List.mem_map.mp hm
    obtain ⟨h1, h2⟩ := hbound script hwf d hd
    have h9 : BUFSIZ = 8192 := rfl
    refine ⟨rfl, rfl, h1, h2, ?_⟩
    show d.length < BUFSIZ
    omega

/-- C8 at a concrete input: two chunks with a would-block read in between,
then end of file. -/
theorem output_pump_byte_fidelity_witness :
    pump_messages (output_interposer running_globals [] pump_script).1 =
        [(1, [104, 105, 10], 3), (1, [0, 255], 2)]
    ∧ ((pump_messages (output_interposer running_globals [] pump_script).1).map
        (fun m => m.2.1)).flatten = [104, 105, 10, 0, 255] :=
  ⟨(output_pump_byte_fidelity running_globals [] pump_script (by
      intro it hit
      simp only [pump_script, List.mem_cons, List.mem_singleton, List.not_mem_nil,
        or_false] at hit
      rcases hit with rfl | rfl | rfl | rfl <;> intro _ <;> decide)).1.trans (by decide),
   by decide⟩

end IpcServer

namespace IpcClient

/-- The bytes stored by `fgets` followed by the rest are the stream. -/
theorem fgets_aux_append (n : Nat) (input : List Byte) :
    (fgets_aux n input).1 ++ (fgets_aux n input).2 = input := by
  induction n generalizing input with
  | zero => simp [fgets_aux]
  | succ m ih =>
    cases input with
    | nil => simp [fgets_aux]
    | cons b rest =>
      unfold fgets_aux
      split_ifs
      · simp
      · simp [ih rest]

/-- With room for at least one byte, `fgets` stores at least one byte of a
stream that is not at its end. -/
theorem fgets_aux_length_pos (n : Nat) (b : Byte) (rest : List Byte) :
    0 < (fgets_aux (n + 1) (b :: rest)).1.length := by
  unfold fgets_aux
  split_ifs <;> simp

/-- The payloads of a trace made of two parts. -/
theorem sent_bytes_append (a b : List Ev) :
    sent_bytes (a ++ b) = sent_bytes a ++ sent_bytes b := by
  induction a with
  | nil => rfl
  | cons e es ih => cases e <;> simp [sent_bytes, ih]

/-- A text without NUL, terminated by NUL: `strlen` gives its length. -/
theorem strlen_terminated (line : List Byte) (h : ∀ b ∈ line, b ≠ 0) :
    strlen (line ++ [0]) = line.length := by
  induction line with
  | nil => simp [strlen]
  | cons x xs ih =>
    have hx : x ≠ 0 := h x (List.mem_cons_self x xs)
    have := ih (fun b hb => h b (List.mem_cons_of_mem x hb))
    simp [strlen, hx, this]

/-- A first msgsnd that succeeds ends the retry loop with one call. -/
theorem send_loop_first_ok (snd : Nat → SendOutcome) (msqtx : Int) (mtext : List Byte)
    (l k : Nat) (h : (snd k).rv ≠ -1) :
    send_loop snd msqtx mtext l 10 k =
      (9, k + 1, [Ev.msgsnd msqtx 1 (mtext.take l) l (snd k).rv]) := by
  simp [send_loop, h]

/-- On a NUL-free input with every send succeeding, the payloads the writer
loop sends, joined in order, are the input. -/
theorem writer_loop_aux_sent (snd : Nat → SendOutcome) (msqtx : Int)
    (hsnd : ∀ k, (snd k).rv ≠ -1) (fuel : Nat) (k : Nat) (input : List Byte)
    (hfuel : input.length < fuel) (hnul : ∀ b ∈ input, b ≠ 0) :
    sent_bytes (writer_loop_aux snd msqtx fuel k input) = input := by
  induction fuel generalizing k input with
  | zero => omega
  | succ f ih =>
    cases input with
    | nil => simp [writer_loop_aux, fgets, sent_bytes]
    | cons b rest =>
      have happ := fgets_aux_append (BUFSIZ - 1) (b :: rest)
      have hpos : 0 < (fgets_aux (BUFSIZ - 1) (b :: rest)).1.length :=
        fgets_aux_length_pos 8190 b rest
      have hline : ∀ x ∈ (fgets_aux (BUFSIZ - 1) (b :: rest)).1, x ≠ 0 := by
        intro x hx
        apply hnul x
        rw [← happ]
        exact List.mem_append_left _ hx
      have hrest : ∀ x ∈ (fgets_aux (BUFSIZ - 1) (b :: rest)).2, x ≠ 0 := by
        intro x hx
        apply hnul x
        rw [← happ]
        exact List.mem_append_right _ hx
      have hlen : (fgets_aux (BUFSIZ - 1) (b :: rest)).2.length < f := by
        have := congrArg List.length happ
        simp only [List.length_append, List.length_cons] at this hfuel
        omega
      have hstr := strlen_terminated _ hline
      have hne : (fgets_aux (BUFSIZ - 1) (b :: rest)).1.length ≠ 0 := by omega
      simp only [writer_loop_aux, fgets, hstr, hne, if_false,
        send_loop_first_ok snd msqtx _ _ k (hsnd k)]
      rw [if_neg (by decide), sent_bytes_append, ih (k + 1) _ hlen hrest]
      simp [sent_bytes, hsnd k, happ]

end IpcClient

namespace IpcServer

/-- The buffers handed over in a trace made of two parts. -/
theorem handed_bytes_append (a b : List Ev) :
    handed_bytes (a ++ b) = handed_bytes a ++ handed_bytes b := by
  induction a with
  | nil => rfl
  | cons e es ih => cases e <;> simp [handed_bytes, ih]

/-- The messages received in a trace made of two parts. -/
theorem received_bytes_append (a b : List Ev) :
    received_bytes (a ++ b) = received_bytes a ++ received_bytes b := by
  induction a with
  | nil => rfl
  | cons e es ih => cases e <;> simp [received_bytes, ih]

/-- The bytes accepted in a trace made of two parts. -/
theorem accepted_bytes_append (a b : List Ev) :
    accepted_bytes (a ++ b) = accepted_bytes a ++ accepted_bytes b := by
  induction a with
  | nil => rfl
  | cons e es ih => cases e <;> simp [accepted_bytes, ih]

/-- The events of `write_to_stdin` contain no msgrcv and no call marker. -/
theorem write_loop_quiet (fd : Int) (data : List Byte) (bytes : Nat)
    (script : List WriteOutcome) (c : Nat) (p : Nat × List Ev)
    (h : write_loop fd data bytes c script = some p) :
    handed_bytes p.2 = [] ∧ received_bytes p.2 = [] := by
  induction script generalizing c p with
  | nil =>
    unfold write_loop at h
    split_ifs at h
    simp at h
    rw [← h]
    exact ⟨rfl, rfl⟩
  | cons o rest ih =>
    unfold write_loop at h
    split_ifs at h with h0 h1 h2
    · cases hr : write_loop fd data bytes c rest with
      | none =>
        rw [hr] at h
        simp at h
      | some q =>
        rw [hr] at h
        simp at h
        rw [← h]
        exact ih c q hr
    · simp at h
      rw [← h]
      exact ⟨rfl, rfl⟩
    · cases hr : write_loop fd data bytes ((c + to_size_t o.r) % 2 ^ 64) rest with
      | none =>
        rw [hr] at h
        simp at h
      | some q =>
        rw [hr] at h
        simp at h
        rw [← h]
        exact ih _ q hr
    · simp at h
      rw [← h]
      exact ⟨rfl, rfl⟩

/-- The buffers `doit` passes to `write_to_stdin`, joined in call order, are
the messages it took from the queue, joined in receive order. -/
theorem doit_loop_handed (g : Globals) (script : List DoitIter) (t : List Ev)
    (h : doit_loop g script = some t) : handed_bytes t = received_bytes t := by
  induction script generalizing t with
  | nil => simp [doit_loop] at h
  | cons it rest ih =>
    unfold doit_loop at h
    split_ifs at h with h1 h2 h3
    · simp at h
      rw [← h]
      rfl
    · cases hr : doit_loop g rest with
      | none => simp [hr] at h
      | some t1 =>
        simp [hr] at h
        rw [← h]
        simp [handed_bytes, received_bytes, h2, ih t1 hr]
    · simp at h
      rw [← h]
      simp [handed_bytes, received_bytes, h2]
    · dsimp only at h
      split at h
      · simp at h
      · rename_i p hp
        cases hr : doit_loop g rest with
        | none => simp [hr] at h
        | some t1 =>
          simp [hr] at h
          have hq : handed_bytes p.2 = [] ∧ received_bytes p.2 = [] := by
            unfold write_to_stdin at hp
            cases hw : write_loop g.pin1 it.rcv.mtext (to_size_t it.rcv.rv) 0 it.writes with
            | none => simp [hw] at hp
            | some q =>
              simp [hw] at hp
              rw [← hp]
              have := write_loop_quiet _ _ _ _ _ q hw
              exact ⟨by simpa [handed_bytes] using this.1, by simpa [received_bytes] using this.2⟩
          rw [← h]
          simp [handed_bytes, received_bytes, h2, handed_bytes_append, received_bytes_append,
            hq.1, hq.2, ih t1 hr]

/-- The size conversion keeps a natural number below 2 ^ 64. -/
theorem to_size_t_natCast (n : Nat) (h : n < 2 ^ 64) : to_size_t (n : Int) = n := by
  unfold to_size_t
  have h1 : ((n : Int)) % 2 ^ 64 = (n : Int) :=
    Int.emod_eq_of_lt (Int.natCast_nonneg n) (by exact_mod_cast h)
  rw [h1]
  exact Int.toNat_natCast n

/-- When every write fails with EINTR or EAGAIN or takes the whole buffer,
the bytes the pipe accepted are the first `bytes` bytes of the buffer. -/
theorem write_loop_accepts_whole (fd : Int) (data : List Byte) (bytes : Nat)
    (hb : bytes < 2 ^ 64) (script : List WriteOutcome) (p : Nat × List Ev)
    (hw : ∀ o ∈ script, (o.r < 0 ∧ (o.errno = EINTR ∨ o.errno = EAGAIN)) ∨ o.r = (bytes : Int))
    (h : write_loop fd data bytes 0 script = some p) :
    accepted_bytes p.2 = data.take bytes := by
  induction script generalizing p with
  | nil =>
    unfold write_loop at h
    split_ifs at h with h0
    simp at h
    rw [← h]
    have : bytes = 0 := by omega
    simp [accepted_bytes, this]
  | cons o rest ih =>
    have hrest : ∀ x ∈ rest, (x.r < 0 ∧ (x.errno = EINTR ∨ x.errno = EAGAIN)) ∨
        x.r = (bytes : Int) := fun x hx => hw x (List.mem_cons_of_mem o hx)
    unfold write_loop at h
    split_ifs at h with h0 h1 h2
    · cases hr : write_loop fd data bytes 0 rest with
      | none =>
        rw [hr] at h
        simp at h
      | some q =>
        rw [hr] at h
        simp at h
        rw [← h]
        have hneg : o.r.toNat = 0 := Int.toNat_of_nonpos (le_of_lt h1.1)
        simp [accepted_bytes, hneg, ih q hrest hr]
    · exfalso
      rcases hw o (List.mem_cons_self o rest) with ht | he
      · exact h1 ht
      · apply h2
        rw [he, to_size_t_natCast bytes hb]
        omega
    · have he : o.r = (bytes : Int) := by
        rcases hw o (List.mem_cons_self o rest) with ht | he
        · exact absurd ht h1
        · exact he
      have h4 : (0 + to_size_t o.r) % 2 ^ 64 = bytes := by
        rw [he, to_size_t_natCast bytes hb, Nat.zero_add, Nat.mod_eq_of_lt hb]
      rw [h4, write_loop_done _ _ _ _ (lt_irrefl bytes)] at h
      simp at h
      rw [← h]
      simp [accepted_bytes, he, List.take_take]
    · simp at h
      rw [← h]
      have : bytes = 0 := by omega
      simp [accepted_bytes, this]

/-- The events of one call of `write_to_stdin` hand over and receive nothing. -/
theorem write_to_stdin_quiet (g : Globals) (data : List Byte) (bytes : Nat)
    (script : List WriteOutcome) (p : Nat × List Ev)
    (hp : write_to_stdin g data bytes script = some p) :
    handed_bytes p.2 = [] ∧ received_bytes p.2 = [] := by
  unfold write_to_stdin at hp
  cases hw : write_loop g.pin1 data bytes 0 script with
  | none => simp [hw] at hp
  | some q =>
    simp [hw] at hp
    rw [← hp]
    have := write_loop_quiet _ _ _ _ _ q hw
    exact ⟨by simpa [handed_bytes] using this.1, by simpa [received_bytes] using this.2⟩

/-- When the msgrcv results respect the contract and every write takes the
whole message, the bytes the pipe accepted are the buffers handed over. -/
theorem doit_loop_accepted (g : Globals) (script : List DoitIter) (t : List Ev)
    (hok : ∀ it ∈ script, it.rcv_ok) (hw : ∀ it ∈ script, it.writes_whole)
    (h : doit_loop g script = some t) : accepted_bytes t = handed_bytes t := by
  induction script generalizing t with
  | nil => simp [doit_loop] at h
  | cons it rest ih =>
    have hok1 : ∀ x ∈ rest, x.rcv_ok := fun x hx => hok x (List.mem_cons_of_mem it hx)
    have hw1 : ∀ x ∈ rest, x.writes_whole := fun x hx => hw x (List.mem_cons_of_mem it hx)
    unfold doit_loop at h
    split_ifs at h with h1 h2 h3
    · simp at h
      rw [← h]
      rfl
    · cases hr : doit_loop g rest with
      | none => simp [hr] at h
      | some t1 =>
        simp [hr] at h
        rw [← h]
        simp [handed_bytes, accepted_bytes, ih t1 hok1 hw1 hr]
    · simp at h
      rw [← h]
      simp [handed_bytes, accepted_bytes]
    · dsimp only at h
      split at h
      · simp at h
      · rename_i p hp
        cases hr : doit_loop g rest with
        | none => simp [hr] at h
        | some t1 =>
          simp [hr] at h
          obtain ⟨hlo, hhi⟩ := hok it (List.mem_cons_self it rest)
          have hnn : 0 ≤ it.rcv.rv := by omega
          have hcast : ((it.rcv.rv.toNat : Nat) : Int) = it.rcv.rv := Int.toNat_of_nonneg hnn
          have hlt : it.rcv.rv.toNat < 2 ^ 64 := by
            have h8 : (BUFSIZ : Int) = 8192 := rfl
            omega
          have hsz : to_size_t it.rcv.rv = it.rcv.rv.toNat := by
            rw [← hcast, to_size_t_natCast _ hlt, hcast]
          have hacc : accepted_bytes p.2 = it.rcv.mtext.take (to_size_t it.rcv.rv) := by
            unfold write_to_stdin at hp
            cases hq : write_loop g.pin1 it.rcv.mtext (to_size_t it.rcv.rv) 0 it.writes with
            | none => simp [hq] at hp
            | some q =>
              simp [hq] at hp
              rw [← hp]
              have := write_loop_accepts_whole g.pin1 it.rcv.mtext (to_size_t it.rcv.rv)
                (by rw [hsz]; exact hlt) it.writes q
                (by
                  intro o ho
                  rw [hsz, hcast]
                  exact hw it (List.mem_cons_self it rest) o ho) hq
              simpa [accepted_bytes] using this
          rw [← h]
          simp [handed_bytes, accepted_bytes, accepted_bytes_append, handed_bytes_append, hacc,
            (write_to_stdin_quiet _ _ _ _ p hp).1, ih t1 hok1 hw1 hr]

end IpcServer

namespace IpcServer

/-- The loop of `write_to_stdin` returns as soon as some write is not an
EINTR or EAGAIN failure. -/
theorem write_loop_returns (fd : Int) (data : List Byte) (bytes : Nat) (hb : bytes < 2 ^ 64)
    (script : List WriteOutcome) (c : Nat) (hc : c ≤ bytes)
    (h : ∃ o ∈ script, ¬ (o.r < 0 ∧ (o.errno = EINTR ∨ o.errno = EAGAIN))) :
    ∃ p, write_loop fd data bytes c script = some p := by
  induction script generalizing c with
  | nil =>
    obtain ⟨o, ho, -⟩ := h
    simp at ho
  | cons x rest ih =>
    unfold write_loop
    split_ifs with h0 h1 h2
    · have hrest : ∃ o ∈ rest, ¬ (o.r < 0 ∧ (o.errno = EINTR ∨ o.errno = EAGAIN)) := by
        obtain ⟨o, ho, hno⟩ := h
        rcases List.mem_cons.mp ho with rfl | ho
        · exact absurd h1 hno
        · exact ⟨o, ho, hno⟩
      obtain ⟨p, hp⟩ := ih c hc hrest
      rw [hp]
      exact ⟨_, rfl⟩
    · exact ⟨_, rfl⟩
    · have h3 : to_size_t x.r = bytes - c := by simpa using h2
      have h4 : (c + to_size_t x.r) % 2 ^ 64 = bytes := by
        rw [h3, Nat.add_sub_cancel' hc, Nat.mod_eq_of_lt hb]
      rw [h4, write_loop_done _ _ _ _ (lt_irrefl bytes)]
      exact ⟨_, rfl⟩
    · exact ⟨_, rfl⟩

/-- The receive loop on a script of iterations that go on, ended by the
flag `terminated` or a hard msgrcv failure: it returns, the buffers it passes to `write_to_stdin` are
the messages of the queue in order, and the pipe accepts exactly these bytes
when every write fails with EINTR or EAGAIN or takes the whole message. -/
theorem doit_loop_relay (g : Globals) (body : List DoitIter) (stop : DoitIter)
    (hbody : ∀ it ∈ body, it.relays)
    (hstop : stop.terminated ≠ 0 ∨ (stop.rcv.rv = -1 ∧ stop.rcv.errno ≠ ENOMSG)) :
    ∃ t, doit_loop g (body ++ [stop]) = some t
      ∧ handed_bytes t = (queue_messages body).flatten
      ∧ ((∀ it ∈ body, it.writes_whole) →
          accepted_bytes t = (queue_messages body).flatten) := by
  induction body with
  | nil =>
    by_cases h0 : stop.terminated ≠ 0
    · exact ⟨[Ev.log_child_terminated], by simp [doit_loop, h0], rfl, fun _ => rfl⟩
    · rcases hstop with h1 | ⟨h1, h2⟩
      · exact absurd h1 h0
      · exact ⟨[Ev.msgrcv g.msqrx stop.rcv.rv stop.rcv.mtext, Ev.log_msgrcv_failed],
          by simp [doit_loop, h0, h1, h2], by simp [handed_bytes, queue_messages],
          fun _ => by simp [accepted_bytes, queue_messages]⟩
  | cons it rest ih =>
    obtain ⟨ht, ⟨hlo, hhi⟩, hno, hwr⟩ := hbody it (List.mem_cons_self it rest)
    obtain ⟨t1, ht1, hh1, ha1⟩ := ih (fun x hx => hbody x (List.mem_cons_of_mem it hx))
    rw [List.cons_append]
    unfold doit_loop
    rw [if_neg (by simpa using ht)]
    by_cases hrv : it.rcv.rv = -1
    · rw [if_pos hrv, if_pos (hno hrv), ht1]
      refine ⟨_, rfl, ?_, ?_⟩
      · simp [handed_bytes, queue_messages, hrv, hh1]
      · intro hw
        simp [accepted_bytes, queue_messages, hrv,
          ha1 (fun x hx => hw x (List.mem_cons_of_mem it hx))]
    · rw [if_neg hrv]
      have hnn : 0 ≤ it.rcv.rv := by omega
      have hcast : ((it.rcv.rv.toNat : Nat) : Int) = it.rcv.rv := Int.toNat_of_nonneg hnn
      have hlt : it.rcv.rv.toNat < 2 ^ 64 := by
        have h8 : (BUFSIZ : Int) = 8192 := rfl
        omega
      have hsz : to_size_t it.rcv.rv = it.rcv.rv.toNat := by
        rw [← hcast, to_size_t_natCast _ hlt, hcast]
      obtain ⟨p, hp⟩ := write_loop_returns g.pin1 it.rcv.mtext (to_size_t it.rcv.rv)
        (by rw [hsz]; exact hlt) it.writes 0 (Nat.zero_le _) (hwr hrv)
      have hq := write_loop_quiet _ _ _ _ _ p hp
      simp only [write_to_stdin, hp, Option.map_some', ht1]
      refine ⟨_, rfl, ?_, ?_⟩
      · simp [handed_bytes, handed_bytes_append, queue_messages, hrv, hq.1, hh1, hsz]
      · intro hw
        have hacc := write_loop_accepts_whole g.pin1 it.rcv.mtext (to_size_t it.rcv.rv)
          (by rw [hsz]; exact hlt) it.writes p
          (by
            intro o ho
            rw [hsz, hcast]
            exact hw it (List.mem_cons_self it rest) o ho) hp
        simp [accepted_bytes, accepted_bytes_append, queue_messages, hrv, hacc, hsz,
          ha1 (fun x hx => hw x (List.mem_cons_of_mem it hx))]

end IpcServer

namespace IpcClient

/-- The payload bytes sent are the messages sent, joined. -/
theorem sent_messages_flatten (t : List Ev) :
    (sent_messages t).flatten = sent_bytes t := by
  induction t with
  | nil => rfl
  | cons e es ih =>
    cases e <;> simp [sent_messages, sent_bytes, ih]
    split_ifs <;> simp [ih]

/-- C9, the claim as stated fails: the input line 97, 0, 98, 10 holds a NUL
byte.  `strlen` stops at it, so only the byte 97 of that line is sent; every
send succeeds, yet the payloads are 97, 99, 10 and not the six input bytes. -/
theorem writer_loop_truncates_at_nul :
    sent_bytes (writer_loop snd_ok 7 [97, 0, 98, 10, 99, 10]) = [97, 99, 10]
    ∧ sent_bytes (writer_loop snd_ok 7 [97, 0, 98, 10, 99, 10]) ≠ [97, 0, 98, 10, 99, 10] := by
  decide

/-- C10, evaluated at a failing input: two lines, the first msgsnd fails with
EINVAL, which is not EAGAIN.  The retry loop breaks with a nonzero counter,
the test `0 == retry` fails, and the writer loop goes on to send the second
line without a diagnostic; the first line was never sent.  With a queue that
stays full the loop gives up after 9 calls of msgsnd, not 10. -/
theorem writer_loop_continues_after_hard_error :
    writer_loop snd_hard_error_first 7 [97, 10, 98, 10] =
      [Ev.msgsnd 7 1 [97, 10] 2 (-1), Ev.msgsnd 7 1 [98, 10] 2 0]
    ∧ writer_loop snd_always_full 7 [97, 10, 98, 10] =
      (List.replicate 9 [Ev.msgsnd 7 1 [97, 10] 2 (-1), Ev.usleep 50000]).flatten
        ++ [Ev.log_msgsnd_failed] := by
  decide

end IpcClient

namespace IpcStdio

/-- C9 as amended: for every input without NUL bytes, lines of any length,
with every send succeeding, the payloads the client writer loop sends,
joined, are the input.  When the queue hands these messages in send order
to the receive loop of the server, over iterations in which the loop goes on
(flag `terminated` clear, msgrcv failing only with ENOMSG, each
`write_to_stdin` reaching a write that is not an EINTR or EAGAIN failure),
and the loop stops after them, then `doit` returns and the buffers it passed
to `write_to_stdin`, joined, are the input, whatever the write calls
returned; and when every write fails with EINTR or EAGAIN or takes the whole
message, the bytes accepted by the pipe are the input. -/
theorem input_direction_fidelity (input : List Byte) (hnul : ∀ b ∈ input, b ≠ 0)
    (snd : Nat → IpcClient.SendOutcome) (hsnd : ∀ k, (snd k).rv ≠ -1) (msqtx : Int) :
    IpcClient.sent_bytes (IpcClient.writer_loop snd msqtx input) = input
    ∧ ∀ (g : IpcServer.Globals) (body : List IpcServer.DoitIter) (stop : IpcServer.DoitIter),
        (∀ it ∈ body, it.relays) →
        (stop.terminated ≠ 0 ∨ (stop.rcv.rv = -1 ∧ stop.rcv.errno ≠ IpcServer.ENOMSG)) →
        IpcServer.queue_messages body =
          IpcClient.sent_messages (IpcClient.writer_loop snd msqtx input) →
        ∃ t, IpcServer.doit g (body ++ [stop]) = some t
          ∧ IpcServer.handed_bytes t = input
          ∧ ((∀ it ∈ body, it.writes_whole) → IpcServer.accepted_bytes t = input) := by
  have hsent : IpcClient.sent_bytes (IpcClient.writer_loop snd msqtx input) = input :=
    IpcClient.writer_loop_aux_sent snd msqtx hsnd _ 0 input (Nat.lt_succ_self _) hnul
  refine ⟨hsent, ?_⟩
  intro g body stop hbody hstop hq
  obtain ⟨t, ht, hh, ha⟩ := IpcServer.doit_loop_relay g body stop hbody hstop
  have hin : (IpcServer.queue_messages body).flatten = input := by
    rw [hq, IpcClient.sent_messages_flatten, hsent]
  refine ⟨IpcServer.Ev.signal_sigint :: t, by simp [IpcServer.doit, ht], ?_, ?_⟩
  · rw [← hin, ← hh]
    rfl
  · intro hw
    rw [← hin, ← ha hw]
    rfl

/-- C9 as amended, at a concrete input: two lines without NUL, relayed by
the receive loop with one empty poll and one interrupted write. -/
theorem input_direction_fidelity_witness :
    IpcClient.sent_bytes (IpcClient.writer_loop IpcClient.snd_ok 7 [104, 105, 10, 111, 10]) =
      [104, 105, 10, 111, 10]
    ∧ ∃ t, IpcServer.doit IpcServer.running_globals
          (IpcServer.relay_body ++ [IpcServer.relay_stop]) = some t
        ∧ IpcServer.handed_bytes t = [104, 105, 10, 111, 10]
        ∧ IpcServer.accepted_bytes t = [104, 105, 10, 111, 10] := by
  have h := input_direction_fidelity [104, 105, 10, 111, 10] (by decide) IpcClient.snd_ok
    (by
      intro k
      show (0 : Int) ≠ -1
      decide) 7
  have hb : ∀ it ∈ IpcServer.relay_body, it.relays := by
    intro it hit
    simp only [IpcServer.relay_body, List.mem_cons, List.mem_singleton,
      List.not_mem_nil, or_false] at hit
    rcases hit with rfl | rfl | rfl
    · exact ⟨rfl, ⟨by decide, by decide⟩, fun _ => rfl, fun hne => absurd rfl hne⟩
    · exact ⟨rfl, ⟨by decide, by decide⟩, fun he => absurd he (by decide),
        fun _ => ⟨⟨3, 0⟩, by simp, by decide⟩⟩
    · exact ⟨rfl, ⟨by decide, by decide⟩, fun he => absurd he (by decide),
        fun _ => ⟨⟨2, 0⟩, by simp, by decide⟩⟩
  have hw : ∀ it ∈ IpcServer.relay_body, it.writes_whole := by
    intro it hit
    simp only [IpcServer.relay_body, List.mem_cons, List.mem_singleton,
      List.not_mem_nil, or_false] at hit
    rcases hit with rfl | rfl | rfl <;> intro o ho <;>
      simp [IpcServer.EINTR, IpcServer.EAGAIN] at ho ⊢ <;>
      rcases ho with rfl | rfl <;> simp [IpcServer.EINTR]
  obtain ⟨t, ht, hh, ha⟩ := h.2 IpcServer.running_globals IpcServer.relay_body
    IpcServer.relay_stop hb (Or.inl (by decide)) (by decide)
  exact ⟨h.1, t, ht, hh, ha hw⟩

end IpcStdio

namespace IpcServer

/-- The defect behind the unreported fork failure, in general: with the
pipes created, for every result of fork that is not positive (0 in the child,
-1 on failure) `start` runs the child branch: it calls execve and does not
return to its caller. -/
theorem start_child_branch_for_nonpositive_fork (env : StartEnv) (w : World)
    (pi po pk : Int × Int) (hpin : env.pipe_pin = some pi) (hpout : env.pipe_pout = some po)
    (hpok : env.pipe_pok = some pk) (hfork : env.fork_ret ≤ 0) :
    ∃ w1 e, start env w = some (w1, e) ∧ Ev.execve ∈ w1.trace
      ∧ (e = Exit.execed ∨ e = Exit.exited 1) := by
  have hf : ¬ 0 < env.fork_ret := not_lt.mpr hfork
  have hs : start env w = some (start_child env
      ⟨{ w.g with pin0 := pi.1, pin1 := pi.2, pout0 := po.1, pout1 := po.2,
                  pok0 := pk.1, pok1 := pk.2 },
       w.trace ++ [Ev.pipe, Ev.pipe, Ev.pipe, Ev.fork], w.nwait⟩) := by
    simp [start, hpin, hpout, hpok, hf]
  have hch : ∀ v : World, Ev.execve ∈ (start_child env v).1.trace
      ∧ ((start_child env v).2 = Exit.execed ∨ (start_child env v).2 = Exit.exited 1) := by
    intro v
    by_cases hx : env.execve_ok = true <;> simp [start_child, hx]
  exact ⟨_, _, hs, (hch _).1, (hch _).2⟩

end IpcServer

namespace IpcClient

/-- The retry loop entered with `retry + 1` in the counter makes at most
`retry` calls of msgsnd: 9 for the 10 of line 147. -/
theorem send_loop_calls_le (snd : Nat → SendOutcome) (msqtx : Int) (mtext : List Byte)
    (l retry k : Nat) : (send_loop snd msqtx mtext l (retry + 1) k).2.1 ≤ k + retry := by
  induction retry generalizing k with
  | zero => simp [send_loop]
  | succ r ih =>
    have := ih (k + 1)
    rw [send_loop]
    by_cases h1 : (snd k).rv = -1
    · by_cases h2 : (snd k).errno = EAGAIN
      · simp only [h1, h2, Nat.succ_ne_zero, if_false, ne_eq, not_true_eq_false]
        omega
      · simp only [h1, h2, Nat.succ_ne_zero, if_false, ne_eq, not_true_eq_false,
          not_false_eq_true, if_true]
        omega
    · simp only [h1, Nat.succ_ne_zero, if_false, ne_eq, not_false_eq_true, if_true]
      omega

/-- A first msgsnd that fails with an errno other than EAGAIN leaves the
retry loop with the counter at 9, as a successful send does. -/
theorem send_loop_hard_error (snd : Nat → SendOutcome) (msqtx : Int) (mtext : List Byte)
    (l k : Nat) (hrv : (snd k).rv = -1) (herr : (snd k).errno ≠ EAGAIN) :
    send_loop snd msqtx mtext l 10 k =
      (9, k + 1, [Ev.msgsnd msqtx 1 (mtext.take l) l (-1)]) := by
  simp [send_loop, hrv, herr]

/-- The defect behind the unreported send failure, in general: when the first
msgsnd for a line fails with an errno other than EAGAIN, the writer loop
records no diagnostic and goes on with the rest of the input. -/
theorem writer_loop_aux_hard_error (snd : Nat → SendOutcome) (msqtx : Int) (fuel k : Nat)
    (b : Byte) (input : List Byte) (hb : b ≠ 0)
    (hrv : (snd k).rv = -1) (herr : (snd k).errno ≠ EAGAIN) :
    ∃ ev, writer_loop_aux snd msqtx (fuel + 1) k (b :: input) =
      ev :: writer_loop_aux snd msqtx fuel (k + 1) (fgets_aux (BUFSIZ - 1) (b :: input)).2 := by
  have hl : strlen ((fgets_aux (BUFSIZ - 1) (b :: input)).1 ++ [0]) ≠ 0 := by
    have h1 : fgets_aux (BUFSIZ - 1) (b :: input) = fgets_aux (8190 + 1) (b :: input) := rfl
    rw [h1]
    unfold fgets_aux
    split_ifs <;> simp [strlen, hb]
  refine ⟨Ev.msgsnd msqtx 1
    (((fgets_aux (BUFSIZ - 1) (b :: input)).1 ++ [0]).take
      (strlen ((fgets_aux (BUFSIZ - 1) (b :: input)).1 ++ [0])))
    (strlen ((fgets_aux (BUFSIZ - 1) (b :: input)).1 ++ [0])) (-1), ?_⟩
  simp only [writer_loop_aux, fgets, hl, if_false,
    send_loop_hard_error snd msqtx _ _ k hrv herr]
  rfl

end IpcClient

namespace IpcServer

/-- Why the relay needs the loop to go on: when the flag `terminated` is seen
set after the first of two queued messages, the receive loop stops and the
second message is never passed to `write_to_stdin`. -/
theorem doit_stops_before_queue_is_empty :
    (doit running_globals
        [ { terminated := 0, rcv := ⟨3, [104, 105, 10], 0⟩, writes := [⟨3, 0⟩] },
          { terminated := 1, rcv := ⟨2, [111, 10], 0⟩, writes := [⟨2, 0⟩] } ]).map
      handed_bytes = some [104, 105, 10] := by
  decide

end IpcServer
